import Mathlib

/-!
# The per-locality runtime-support service (hpx::components::server::runtime_support)

A shallow embedding of `src/runtime/components/server/runtime_support.cpp`.

* The external world (naming service, loaded modules, the internal state of the
  factories) is an arbitrary type `σ` that is threaded through every call.
* Every call into a collaborator and every log statement is recorded, in
  program order, in a trace of `event`s.
* A C++ exception raised with `HPX_THROW_EXCEPTION` is an `Except.error`.
-/

namespace hpx

/-! ## Data model -/

/-- The enum `components::component_type` (an integer tag). -/
abbrev component_type := Int

/-- The global id `naming::gid_type`: locality part and local part. -/
structure gid_type where
  msb : Nat
  lsb : Nat
deriving DecidableEq, Repr

/-- The resolved address `naming::address`. -/
structure address where
  locality_ : Nat
  type_ : component_type
  address_ : Nat
deriving DecidableEq, Repr

/-- The error codes this file raises through `HPX_THROW_EXCEPTION`. The last
constructor is not an hpx error code: it marks a call in which the source
dereferences a null factory pointer, whose behaviour C++ leaves undefined. -/
inductive error
  | bad_component_type
  | unknown_component_address
  | duplicate_component_address
  | null_factory_dereference
deriving DecidableEq, Repr

/-- What a collaborator throws inside the loader: `std::logic_error` or another
`std::exception`, each with its `what()` text. -/
inductive thrown
  | logic_error (what : String)
  | exception (what : String)
deriving DecidableEq, Repr

/-- The message carried by a thrown exception (`e.what()`). -/
def thrown.what : thrown → String
  | .logic_error s => s
  | .exception s => s

/-- Log levels used by the `LRT_` statements of the file. -/
inductive level
  | info
  | warning
  | error
deriving DecidableEq, Repr

/-- The observable steps of the service, in program order. -/
inductive event
  | log (lvl : level) (msg : String)
  | factory_create (type : component_type) (count : Nat)
  | factory_create_one (type : component_type)
  | factory_destroy (type : component_type) (gid : gid_type)
  | factory_properties (type : component_type)
  | resolve (gid : gid_type)
  | memory_block_destroy (address_ : Nat)
  | dll_open (lib : String) (component : String)
  | plugin_create (lib : String) (instance_name : String)
  | get_component_type (instance_name : String)
  | factory_discarded (instance_name : String)
  | dll_closed (lib : String)
  | keep_alive (type : component_type)
  | factory_released (type : component_type)
  | module_released (type : component_type)
  | get_prefixes
  | shutdown_async (target : gid_type) (handle : Nat)
  | future_get (handle : Nat)
  | local_stop
deriving DecidableEq, Repr

/-- The interface `component_factory_base` of a factory exported by a module.
Each virtual function is a function of the world it runs in. -/
structure component_factory_base (σ : Type) where
  get_component_type : gid_type → σ → Except thrown component_type × σ
  get_factory_properties : σ → Nat
  create : Nat → σ → Except error gid_type × σ
  create_one : Nat → σ → Except error gid_type × σ
  destroy : gid_type → σ → Except error Unit × σ
  may_unload : σ → Bool
  dtor : σ → σ

/-- The module handle `boost::plugin::dll`: the library it was opened from,
the map name, and whether `keep_alive()` has pinned it. -/
structure dll where
  lib : String
  name : String
  pinned : Bool
deriving DecidableEq, Repr

/-- The member function `dll::keep_alive`: the library stays loaded when the
handle goes away. -/
def dll.keep_alive (d : dll) : dll := ⟨d.lib, d.name, true⟩

/-- The mapped type of `component_map_type`: a (possibly null) shared pointer to
the factory, and the module the factory lives in. -/
abbrev component_factory_type (σ : Type) := Option (component_factory_base σ) × dll

/-- The registry `component_map_type`, a `std::map` from component type to
entry, held as the list of its entries in iteration order. -/
abbrev component_map_type (σ : Type) := List (component_type × component_factory_type σ)

/-- `components_.find(type)`: the entry stored under `type`, if any. -/
def component_map_type.find {σ : Type} (m : component_map_type σ) (type : component_type) :
    Option (component_factory_type σ) :=
  match m with
  | [] => none
  | (k, e) :: rest => if k = type then some e else component_map_type.find rest type

/-- The ordered insertion behind `std::map::insert` for a key that is not present. -/
def component_map_type.place {σ : Type} (m : component_map_type σ) (type : component_type)
    (e : component_factory_type σ) : component_map_type σ :=
  match m with
  | [] => [(type, e)]
  | (k, x) :: rest =>
    if type < k then (type, e) :: (k, x) :: rest
    else (k, x) :: component_map_type.place rest type e

/-- `components_.insert(value_type(type, e))`: an existing key is left alone and
`false` is reported; otherwise the entry is added and `true` is reported. -/
def component_map_type.insert {σ : Type} (m : component_map_type σ) (type : component_type)
    (e : component_factory_type σ) : component_map_type σ × Bool :=
  match m.find type with
  | some _ => (m, false)
  | none => (m.place type e, true)

/-- The keys of the registry, in iteration order. -/
def component_map_type.keys {σ : Type} (m : component_map_type σ) : List component_type :=
  m.map Prod.fst

/-- The two flags guarded by `mtx_`. -/
structure lifecycle where
  stopped_ : Bool
  terminated_ : Bool
deriving DecidableEq, Repr

/-- The members of `runtime_support` the operations read or write. -/
structure runtime_support (σ : Type) where
  components_ : component_map_type σ
  flags : lifecycle

/-- The collaborators reached through `hpx::applier::get_applier()` and the
names that come from headers: the memory-block type tag, the resolver, the
local locality, the memory-block destructor, and the printers used in logs. -/
structure applier (σ : Type) where
  component_memory_block : component_type
  resolve : gid_type → σ → Option address × σ
  here : σ → Nat
  memory_block_destroy : Nat → σ → σ
  get_component_type_name : component_type → String
  show_gid : gid_type → String
  info_enabled : Bool
  factory_instance_count_is_size : Nat

/-- What a call leaves behind: its result (or the exception it raised), the
service object, the world, and the events it produced. -/
structure outcome (σ : Type) (α : Type) where
  result : Except error α
  self : runtime_support σ
  world : σ
  trace : List event

/-! ## Instance operations -/

/-- The member function `runtime_support::create_component`. -/
def runtime_support.create_component {σ : Type} (appl : applier σ) (rs : runtime_support σ)
    (type : component_type) (count : Nat) (w : σ) : outcome σ gid_type :=
  match rs.components_.find type with
  | none => ⟨.error .bad_component_type, rs, w, []⟩
  | some (none, _) => ⟨.error .bad_component_type, rs, w, []⟩
  | some (some factory, _) =>
    match factory.create count w with
    | (.error e, w1) => ⟨.error e, rs, w1, [.factory_create type count]⟩
    | (.ok id, w1) =>
      if appl.info_enabled then
        if factory.get_factory_properties w1 &&& appl.factory_instance_count_is_size ≠ 0 then
          ⟨.ok id, rs, w1, [.factory_create type count, .factory_properties type,
            .log .info ("successfully created component " ++ appl.show_gid id ++ " of type: "
              ++ appl.get_component_type_name type ++ " (size: " ++ toString count ++ ")")]⟩
        else
          ⟨.ok id, rs, w1, [.factory_create type count, .factory_properties type,
            .log .info ("successfully created " ++ toString count ++ " component(s) "
              ++ appl.show_gid id ++ " of type: " ++ appl.get_component_type_name type)]⟩
      else ⟨.ok id, rs, w1, [.factory_create type count]⟩

/-- The member function `runtime_support::free_component`. Unlike
`create_component` it does not test the factory pointer before using it. -/
def runtime_support.free_component {σ : Type} (appl : applier σ) (rs : runtime_support σ)
    (type : component_type) (gid : gid_type) (w : σ) : outcome σ Unit :=
  if type = appl.component_memory_block then
    match appl.resolve gid w with
    | (none, w1) => ⟨.error .unknown_component_address, rs, w1, [.resolve gid]⟩
    | (some addr, w1) =>
      if appl.here w1 ≠ addr.locality_ then
        ⟨.error .unknown_component_address, rs, w1, [.resolve gid]⟩
      else
        ⟨.ok (), rs, appl.memory_block_destroy addr.address_ w1,
          [.resolve gid, .memory_block_destroy addr.address_,
           .log .info ("successfully destroyed memory block " ++ appl.show_gid gid)]⟩
  else
    match rs.components_.find type with
    | none => ⟨.error .bad_component_type, rs, w, []⟩
    | some (none, _) => ⟨.error .null_factory_dereference, rs, w, []⟩
    | some (some factory, _) =>
      match factory.destroy gid w with
      | (.error e, w1) => ⟨.error e, rs, w1, [.factory_destroy type gid]⟩
      | (.ok _, w1) =>
        ⟨.ok (), rs, w1, [.factory_destroy type gid,
          .log .info ("successfully destroyed component " ++ appl.show_gid gid ++ " of type: "
            ++ appl.get_component_type_name type)]⟩

/-! ## Component loader -/

/-- Modelled from the spec: `util::section` (hpx/util/ini.hpp is not among the
sources). A section of the INI tree as the loader reads it: its name and its
key/value entries. -/
structure ini_section where
  name : String
  entries : List (String × String)
deriving DecidableEq, Repr

/-- Modelled from the spec: `section::has_entry(key)`. -/
def ini_section.has_entry (sec : ini_section) (key : String) : Bool :=
  (sec.entries.lookup key).isSome

/-- Modelled from the spec: `section::get_entry(key)`, the value stored under
`key`. The loader calls it only after `has_entry(key)` has answered true. -/
def ini_section.get_entry (sec : ini_section) (key : String) : String :=
  (sec.entries.lookup key).getD ""

/-- Modelled from the spec: the INI tree `util::section& ini` as far as the
loader looks into it: the subsections of `[hpx.components]` in iteration order
(`none` when the section is absent) and the optional global `[settings]`. -/
structure configuration where
  components : Option (List ini_section)
  settings : Option ini_section
deriving DecidableEq, Repr

/-- Modelled from the spec: `ini.get_section("hpx.components." + instance)`,
null when there is no such section. -/
def configuration.component_section (ini : configuration) (instance_name : String) :
    Option ini_section :=
  match ini.components with
  | none => none
  | some secs => secs.find? fun sec => sec.name == instance_name

/-- What the loader takes from the platform and from `boost::plugin` and
`boost::filesystem`: the library suffix, the default path, the name mangler,
`fs::extension`, `operator/=` on paths, opening a module, creating the factory
through the module's factory symbol, what the world sees when a module handle
goes away, and the printer of type names used in logs. -/
structure plugin_environment (σ : Type) where
  HPX_SHARED_LIB_EXTENSION : String
  HPX_DEFAULT_COMPONENT_PATH : String
  HPX_MANGLE_COMPONENT_NAME_STR : String → String
  extension : String → String
  append : String → String → String
  dll_open : String → String → σ → Except thrown dll × σ
  plugin_create : dll → String → Option ini_section → Option ini_section → σ →
    Except thrown (component_factory_base σ) × σ
  dll_close : dll → σ → σ
  get_component_type_name : component_type → String

/-- What a call of the loader leaves behind: the value it returns, the
service object, the world and the events. -/
structure loaded (σ : Type) (α : Type) where
  value : α
  self : runtime_support σ
  world : σ
  trace : List event

/-- The log statement of both catch blocks of `load_component`. -/
def loading_failed (isdefault : Bool) (lib instance_name : String) (e : thrown) : List event :=
  if !isdefault then
    [.log .warning ("dynamic loading failed: " ++ lib ++ ": " ++ instance_name ++ ": " ++ e.what)]
  else []

/-- The member function `runtime_support::load_component`. The locals `d` and
`factory` go away when the function is left; on success the registry holds
copies, so neither the module nor the factory is given up. -/
def runtime_support.load_component {σ : Type} (env : plugin_environment σ)
    (rs : runtime_support σ) (ini : configuration) (instance_name component lib : String)
    (locality : gid_type) (isdefault : Bool) (w : σ) : loaded σ Bool :=
  if env.extension lib ≠ env.HPX_SHARED_LIB_EXTENSION then ⟨false, rs, w, []⟩
  else
    match env.dll_open lib component w with
    | (.error e, w1) =>
      ⟨false, rs, w1, .dll_open lib component :: loading_failed isdefault lib instance_name e⟩
    | (.ok d, w1) =>
      match env.plugin_create d instance_name ini.settings
          (ini.component_section instance_name) w1 with
      | (.error e, w2) =>
        ⟨false, rs, env.dll_close d w2,
          [.dll_open lib component, .plugin_create lib instance_name, .dll_closed lib]
            ++ loading_failed isdefault lib instance_name e⟩
      | (.ok factory, w2) =>
        match factory.get_component_type locality w2 with
        | (.error e, w3) =>
          ⟨false, rs, env.dll_close d (factory.dtor w3),
            [.dll_open lib component, .plugin_create lib instance_name,
             .get_component_type instance_name, .factory_discarded instance_name,
             .dll_closed lib] ++ loading_failed isdefault lib instance_name e⟩
        | (.ok t, w3) =>
          if t = 0 then
            ⟨false, rs, env.dll_close d (factory.dtor w3),
              [.dll_open lib component, .plugin_create lib instance_name,
               .get_component_type instance_name,
               .log .info ("component refused to load: " ++ instance_name),
               .factory_discarded instance_name, .dll_closed lib]⟩
          else
            match rs.components_.insert t (some factory, d) with
            | (m, false) =>
              ⟨false, ⟨m, rs.flags⟩, env.dll_close d (factory.dtor w3),
                [.dll_open lib component, .plugin_create lib instance_name,
                 .get_component_type instance_name,
                 .log .error ("duplicate component id: " ++ instance_name ++ ": "
                   ++ env.get_component_type_name t),
                 .factory_discarded instance_name, .dll_closed lib]⟩
            | (m, true) =>
              ⟨true, ⟨m, rs.flags⟩, w3,
                [.dll_open lib component, .plugin_create lib instance_name,
                 .get_component_type instance_name,
                 .log .info ("dynamic loading succeeded: " ++ lib ++ ": " ++ instance_name
                   ++ ": " ++ env.get_component_type_name t)]⟩

/-- The call `boost::algorithm::to_lower(tmp)`: every character goes through
`tolower` (the letters A to Z are mapped, the rest is kept). -/
def to_lower (tmp : String) : String := ⟨tmp.data.map Char.toLower⟩

/-- The test on the `enabled` entry in `load_components`: the entry exists and
its lower-cased value is `no`, `false` or `0`. -/
def ini_section.disabled (sec : ini_section) : Bool :=
  if sec.has_entry "enabled" then
    let tmp := to_lower (sec.get_entry "enabled")
    tmp == "no" || tmp == "false" || tmp == "0"
  else false

/-- The test on the `isdefault` entry in `load_components`. -/
def ini_section.isdefault (sec : ini_section) : Bool :=
  if sec.has_entry "isdefault" then to_lower (sec.get_entry "isdefault") == "true"
  else false

/-- One round of the loop of `runtime_support::load_components`, for the
section `sec`. -/
def runtime_support.load_section {σ : Type} (env : plugin_environment σ)
    (rs : runtime_support σ) (ini : configuration) (locality : gid_type) (sec : ini_section)
    (w : σ) : loaded σ Unit :=
  let instance_name := sec.name
  let component :=
    if sec.has_entry "name" then env.HPX_MANGLE_COMPONENT_NAME_STR (sec.get_entry "name")
    else env.HPX_MANGLE_COMPONENT_NAME_STR instance_name
  if sec.disabled then
    ⟨(), rs, w, [.log .info ("dynamic loading disabled: " ++ instance_name)]⟩
  else
    let lib :=
      if sec.has_entry "path" then sec.get_entry "path" else env.HPX_DEFAULT_COMPONENT_PATH
    let first := rs.load_component env ini instance_name component lib locality sec.isdefault w
    if first.value then ⟨(), first.self, first.world, first.trace⟩
    else
      let second := first.self.load_component env ini instance_name component
        (env.append lib (component ++ env.HPX_SHARED_LIB_EXTENSION)) locality sec.isdefault
        first.world
      ⟨(), second.self, second.world, first.trace ++ second.trace⟩

/-- The loop of `runtime_support::load_components` over the sections. -/
def runtime_support.load_sections {σ : Type} (env : plugin_environment σ)
    (rs : runtime_support σ) (ini : configuration) (locality : gid_type) :
    List ini_section → σ → loaded σ Unit
  | [], w => ⟨(), rs, w, []⟩
  | sec :: rest, w =>
    let one := rs.load_section env ini locality sec w
    let more := one.self.load_sections env ini locality rest one.world
    ⟨(), more.self, more.world, one.trace ++ more.trace⟩

/-- The member function `runtime_support::load_components`. -/
def runtime_support.load_components {σ : Type} (env : plugin_environment σ)
    (rs : runtime_support σ) (ini : configuration) (locality : gid_type) (w : σ) :
    loaded σ Unit :=
  match ini.components with
  | none =>
    ⟨(), rs, w, [.log .info ("No components found/loaded, HPX will be mostly "
      ++ "non-functional (no section [hpx.components] found).")]⟩
  | some secs => rs.load_sections env ini locality secs w

/-- The constructor `runtime_support::runtime_support`: both flags false, an
empty registry, then `load_components`. -/
def runtime_support.construct {σ : Type} (env : plugin_environment σ) (ini : configuration)
    (locality : gid_type) (w : σ) : loaded σ Unit :=
  (⟨[], ⟨false, false⟩⟩ : runtime_support σ).load_components env ini locality w

/-! ## Teardown -/

/-- The loop of `runtime_support::tidy` over the entries of `components_`, in
iteration order. For each entry: if the factory pointer is set, `keep_alive()` is
called on the module when the factory says it may not be unloaded, then the
factory pointer is reset; then the entry is erased, which lets go of the module
handle. `dll_close` is what the world sees of a handle going away. The first
component of the result is what is left of `components_`. -/
def tidy_loop {σ : Type} (dll_close : dll → σ → σ) :
    component_map_type σ → σ → component_map_type σ × σ × List event
  | [], w => ([], w, [])
  | (k, (none, d)) :: rest, w =>
    let r := tidy_loop dll_close rest (dll_close d w)
    (r.1, r.2.1, .module_released k :: r.2.2)
  | (k, (some factory, d)) :: rest, w =>
    if !factory.may_unload w then
      let r := tidy_loop dll_close rest (dll_close d.keep_alive (factory.dtor w))
      (r.1, r.2.1, .keep_alive k :: .factory_released k :: .module_released k :: r.2.2)
    else
      let r := tidy_loop dll_close rest (dll_close d (factory.dtor w))
      (r.1, r.2.1, .factory_released k :: .module_released k :: r.2.2)

/-- The member function `runtime_support::tidy`. -/
def runtime_support.tidy {σ : Type} (dll_close : dll → σ → σ) (rs : runtime_support σ)
    (w : σ) : outcome σ Unit :=
  let r := tidy_loop dll_close rs.components_ w
  ⟨.ok (), ⟨r.1, rs.flags⟩, r.2.1, r.2.2⟩

/-- Scanning the trace from the start, event `a` is met before any `b`, and a
`b` follows it. -/
def occurs_before (a b : event) : List event → Bool
  | [] => false
  | x :: rest =>
    if x = b then false
    else if x = a then rest.contains b
    else occurs_before a b rest

/-! ## Lifecycle controller

`run`, `wait`, `stop` and `stopped` all start with `mutex_type::scoped_lock l(mtx_)`.
The part of each function that runs while the caller owns `mtx_` is a function of
the two flags; the threads, the mutex and the two condition variables are a step
function on a `system`. `BOOST_ASSERT` is taken as compiled in: a failing
assertion ends the process. -/

/-- The condition variables `wait_condition_` and `stop_condition_`. -/
inductive condition
  | wait_condition_
  | stop_condition_
deriving DecidableEq, Repr

/-- Where a thread stands inside the member function it called. -/
inductive pc
  /-- The call is made; `scoped_lock l(mtx_)` has not got the mutex yet. -/
  | start
  /-- The thread owns `mtx_` and is about to run the body. -/
  | locked
  /-- Inside `condition.wait(l)`: the mutex is given up, no wake-up yet. -/
  | waiting (c : condition)
  /-- Woken (by `notify_all` or spuriously); `wait(l)` must take `mtx_` again. -/
  | notified
  /-- The thread owns `mtx_` again and `wait(l)` has returned. -/
  | relocked
  /-- The member function has returned. -/
  | returned
  /-- The `BOOST_ASSERT` of the member function has failed. -/
  | assert_failed
deriving DecidableEq, Repr

/-- What the body of a member function does between taking the mutex and either
returning, blocking in `wait(l)` or failing its assertion. -/
structure locked_section where
  flags : lifecycle
  notify_all : Option condition
  next : pc
deriving DecidableEq, Repr

/-- The body of `runtime_support::run`. -/
def lifecycle.run (_f : lifecycle) : locked_section :=
  ⟨⟨false, false⟩, none, .returned⟩

/-- The body of `runtime_support::wait` up to `wait_condition_.wait(l)`. -/
def lifecycle.wait (f : lifecycle) : locked_section :=
  if !f.stopped_ then ⟨f, none, .waiting .wait_condition_⟩
  else ⟨f, none, .returned⟩

/-- The body of `runtime_support::stop` up to `stop_condition_.wait(l)`. -/
def lifecycle.stop (f : lifecycle) : locked_section :=
  if !f.stopped_ then
    if f.terminated_ then ⟨f, none, .assert_failed⟩
    else ⟨⟨true, f.terminated_⟩, some .wait_condition_, .waiting .stop_condition_⟩
  else ⟨f, none, .returned⟩

/-- The body of `runtime_support::stopped`. -/
def lifecycle.stopped (f : lifecycle) : locked_section :=
  if !f.terminated_ then ⟨⟨f.stopped_, true⟩, some .stop_condition_, .returned⟩
  else ⟨f, none, .returned⟩

/-- The lifecycle member functions a thread can call. -/
inductive call
  | run
  | wait
  | stop
  | stopped
deriving DecidableEq, Repr

/-- The body of the called member function. -/
def call.body : call → lifecycle → locked_section
  | .run => lifecycle.run
  | .wait => lifecycle.wait
  | .stop => lifecycle.stop
  | .stopped => lifecycle.stopped

/-- A thread: the member function it calls and how far it got. -/
structure thread where
  op : call
  at_ : pc
deriving DecidableEq, Repr

/-- The service object shared by the threads: the flags, the owner of `mtx_`
(an index into `threads`), whether an assertion has ended the process, and the
threads. -/
structure system where
  flags : lifecycle
  mtx_ : Option Nat
  aborted : Bool
  threads : List thread
deriving DecidableEq, Repr

/-- The state right after the constructor (`stopped_(false), terminated_(false)`),
with one thread per call, none of them started. -/
def system.init (ops : List call) : system :=
  ⟨⟨false, false⟩, none, false, ops.map fun c => ⟨c, .start⟩⟩

/-- The effect of `notify_all()` on condition `c`: every thread blocked on `c` is woken. -/
def wake_all (c : Option condition) (ts : List thread) : List thread :=
  ts.map fun t => if some t.at_ = c.map pc.waiting then ⟨t.op, .notified⟩ else t

/-- One step of thread `i`; `none` when the thread cannot move. A step of a
thread that is blocked in `wait(l)` is a spurious wake-up. -/
def system.step (s : system) (i : Nat) : Option system :=
  if s.aborted then none
  else
    match s.threads[i]? with
    | none => none
    | some t =>
      match t.at_ with
      | .start =>
        if s.mtx_ = none then
          some ⟨s.flags, some i, false, s.threads.set i ⟨t.op, .locked⟩⟩
        else none
      | .locked =>
        if s.mtx_ = some i then
          some ⟨(t.op.body s.flags).flags, none,
            decide ((t.op.body s.flags).next = .assert_failed),
            (wake_all (t.op.body s.flags).notify_all s.threads).set i
              ⟨t.op, (t.op.body s.flags).next⟩⟩
        else none
      | .waiting _ => some ⟨s.flags, s.mtx_, false, s.threads.set i ⟨t.op, .notified⟩⟩
      | .notified =>
        if s.mtx_ = none then
          some ⟨s.flags, some i, false, s.threads.set i ⟨t.op, .relocked⟩⟩
        else none
      | .relocked =>
        if s.mtx_ = some i then
          some ⟨s.flags, none, false, s.threads.set i ⟨t.op, .returned⟩⟩
        else none
      | .returned => none
      | .assert_failed => none

/-- Runs a schedule: the list of the threads that move, in order. -/
def system.run_schedule (s : system) : List Nat → Option system
  | [] => some s
  | i :: rest => (s.step i).bind fun s1 => s1.run_schedule rest

/-- The factory registered for `type`: the entry exists and its pointer is not null. -/
def runtime_support.factory_of {σ : Type} (rs : runtime_support σ) (type : component_type) :
    Option (component_factory_base σ) :=
  match rs.components_.find type with
  | some (some factory, _) => some factory
  | _ => none

/-- Whether an event is a call into a factory. -/
def event.is_factory_call : event → Bool
  | .factory_create _ _ => true
  | .factory_create_one _ => true
  | .factory_destroy _ _ => true
  | .factory_properties _ => true
  | _ => false

/-- Whether an event is the destruction of a memory block. -/
def event.is_memory_block_destroy : event → Bool
  | .memory_block_destroy _ => true
  | _ => false

/-! ## Cluster shutdown -/

/-- What loading may do to the registry: entries that are there stay as they
are, keys stay unique, and the key 0 does not come in. -/
def registry_extends {σ : Type} (m m1 : component_map_type σ) : Prop :=
  (∀ t e, m.find t = some e → m1.find t = some e) ∧
  (m.keys.Nodup → m1.keys.Nodup) ∧
  ((0 : component_type) ∉ m.keys → (0 : component_type) ∉ m1.keys)

/-- The component type an event of the teardown is about. -/
def event.teardown_key : event → Option component_type
  | .keep_alive k => some k
  | .factory_released k => some k
  | .module_released k => some k
  | _ => none

/-- What holds of a system of `stop()` and `stopped()` calls once a `stop()` was
the first to take the mutex. -/
structure stop_requested_first (s : system) : Prop where
  ops : ∀ t ∈ s.threads, t.op = .stop ∨ t.op = .stopped
  alive : s.aborted = false
  no_failure : ∀ t ∈ s.threads, t.at_ ≠ .assert_failed
  requested : s.flags.stopped_ = true ∨
    (s.flags.terminated_ = false ∧ ∃ i, s.mtx_ = some i ∧ s.threads[i]? = some ⟨.stop, .locked⟩)
  confirmed : ⟨.stopped, .returned⟩ ∈ s.threads → s.flags.terminated_ = true
  direct : ∀ t ∈ s.threads, t.op = .stopped →
    t.at_ = .start ∨ t.at_ = .locked ∨ t.at_ = .returned

/-- The mangled component name `load_components` works out for a section: from
the `name` entry when there is one, from the section name otherwise. -/
def ini_section.component {σ : Type} (sec : ini_section) (env : plugin_environment σ) : String :=
  if sec.has_entry "name" then env.HPX_MANGLE_COMPONENT_NAME_STR (sec.get_entry "name")
  else env.HPX_MANGLE_COMPONENT_NAME_STR sec.name

/-- The path `load_components` probes first for a section: the `path` entry, or
the default component path. -/
def ini_section.lib_path {σ : Type} (sec : ini_section) (env : plugin_environment σ) : String :=
  if sec.has_entry "path" then sec.get_entry "path" else env.HPX_DEFAULT_COMPONENT_PATH

/-- The module of section `sec` is enabled, opens from `lib` and its factory
reports type `t`, in the world `u` in which the round of `sec` begins: `lib` has
the library suffix and is either the path probed first or, when that path does
not have the suffix, the path probed second; `dll_open` gives the handle `d`,
`plugin_create` the factory `factory`, and `get_component_type` answers `t`. -/
def section_reports {σ : Type} (env : plugin_environment σ) (ini : configuration)
    (locality : gid_type) (sec : ini_section) (lib : String) (u : σ) (t : component_type)
    (factory : component_factory_base σ) (d : dll) : Prop :=
  sec.disabled = false ∧
  env.extension lib = env.HPX_SHARED_LIB_EXTENSION ∧
  (lib = sec.lib_path env ∨
    (env.extension (sec.lib_path env) ≠ env.HPX_SHARED_LIB_EXTENSION ∧
      lib = env.append (sec.lib_path env) (sec.component env ++ env.HPX_SHARED_LIB_EXTENSION))) ∧
  ∃ w1 w2 w3, env.dll_open lib (sec.component env) u = (.ok d, w1) ∧
    env.plugin_create d sec.name ini.settings (ini.component_section sec.name) w1
      = (.ok factory, w2) ∧
    factory.get_component_type locality w2 = (.ok t, w3)

/-! ## Scenario S2: a stub factory at type 42 -/

/-- A stub factory over a world that counts the destroy calls: `create` always
answers `GlobalId(1,100)`. -/
def stub_factory : component_factory_base Nat where
  get_component_type := fun _ w => (.ok 42, w)
  get_factory_properties := fun _ => 0
  create := fun _ w => (.ok ⟨1, 100⟩, w)
  create_one := fun _ w => (.ok ⟨1, 100⟩, w)
  destroy := fun _ w => (.ok (), w + 1)
  may_unload := fun _ => true
  dtor := fun w => w

/-- A factory like the stub, but one whose module may not be unloaded. -/
def resident_factory : component_factory_base Nat where
  get_component_type := fun _ w => (.ok 43, w)
  get_factory_properties := fun _ => 0
  create := fun _ w => (.ok ⟨1, 200⟩, w)
  create_one := fun _ w => (.ok ⟨1, 200⟩, w)
  destroy := fun _ w => (.ok (), w + 1)
  may_unload := fun _ => false
  dtor := fun w => w

/-- A service whose registry holds the stub at type 42 and the resident factory
at type 43. -/
def two_module_service : runtime_support Nat where
  components_ := [(42, (some stub_factory, ⟨"/opt/libs/libstub.so", "stub", false⟩)),
    (43, (some resident_factory, ⟨"/opt/libs/libres.so", "res", false⟩))]
  flags := ⟨true, true⟩

/-- A service whose registry holds the stub factory at type 42. -/
def stub_service : runtime_support Nat where
  components_ := [(42, (some stub_factory, ⟨"/opt/libs/libstub.so", "stub", false⟩))]
  flags := ⟨false, false⟩

/-- An applier for locality 1 whose resolver knows `GlobalId(1,7)` as a local
block at address 4096 and `GlobalId(2,7)` as a block of locality 2. -/
def stub_applier : applier Nat where
  component_memory_block := 2
  resolve := fun g w =>
    if g = ⟨1, 7⟩ then (some ⟨1, 2, 4096⟩, w)
    else if g = ⟨2, 7⟩ then (some ⟨2, 2, 8192⟩, w)
    else (none, w)
  here := fun _ => 1
  memory_block_destroy := fun _ w => w
  get_component_type_name := fun t => toString t
  show_gid := fun g => toString g.msb ++ ":" ++ toString g.lsb
  info_enabled := false
  factory_instance_count_is_size := 1

/-! ## Scenario S4 and its variations: a loader environment -/

/-- A factory that declines to load: `get_component_type` answers 0. -/
def refusing_factory : component_factory_base Nat where
  get_component_type := fun _ w => (.ok 0, w)
  get_factory_properties := fun _ => 0
  create := fun _ w => (.ok ⟨1, 300⟩, w)
  create_one := fun _ w => (.ok ⟨1, 300⟩, w)
  destroy := fun _ w => (.ok (), w)
  may_unload := fun _ => true
  dtor := fun w => w

/-- A platform whose libraries end in `.so`, on which every library opens (the
world counts the opens); the instance `refuser` gets the refusing factory, every
other instance the stub factory of type 42. -/
def test_environment : plugin_environment Nat where
  HPX_SHARED_LIB_EXTENSION := ".so"
  HPX_DEFAULT_COMPONENT_PATH := "/opt/libs"
  HPX_MANGLE_COMPONENT_NAME_STR := fun n => "libhpx_component_" ++ n
  extension := fun p => if p.data.reverse.take 3 = ['o', 's', '.'] then ".so" else ""
  append := fun a b => a ++ "/" ++ b
  dll_open := fun lib name w => (.ok ⟨lib, name, false⟩, w + 1)
  plugin_create := fun _ inst _ _ w =>
    if inst = "refuser" then (.ok refusing_factory, w) else (.ok stub_factory, w)
  dll_close := fun _ w => w
  get_component_type_name := fun t => if t = 42 then "stub" else "unknown"

/-- Section `[hpx.components.A]` with `enabled = No`. -/
def section_A_disabled : ini_section := ⟨"A", [("path", "/opt/libs"), ("enabled", "No")]⟩

/-- Section `[hpx.components.A]`, enabled. -/
def section_A : ini_section := ⟨"A", [("path", "/opt/libs")]⟩

/-- Section `[hpx.components.B]`, enabled. -/
def section_B : ini_section := ⟨"B", [("path", "/opt/libs")]⟩

/-! ## Scenario S6: three localities -/

theorem component_map_type.find_eq_none_of_not_mem_keys {σ : Type} (m : component_map_type σ)
    (type : component_type) (h : type ∉ m.keys) : m.find type = none := by
  induction m with
  | nil => rfl
  | cons p rest ih =>
    obtain ⟨k, e⟩ := p
    simp only [component_map_type.keys, List.map_cons, List.mem_cons, not_or] at h
    have hk : ¬ k = type := fun hk => h.1 hk.symm
    simp only [component_map_type.find, hk, if_false]
    exact ih h.2

theorem component_map_type.not_mem_keys_of_find_eq_none {σ : Type}
    (m : component_map_type σ) (type : component_type) (h : m.find type = none) :
    type ∉ m.keys := by
  induction m with
  | nil => simp [component_map_type.keys]
  | cons p rest ih =>
    obtain ⟨k, e⟩ := p
    simp only [component_map_type.find] at h
    by_cases hk : k = type
    · simp [hk] at h
    · simp only [hk, if_false] at h
      simp only [component_map_type.keys, List.map_cons, List.mem_cons, not_or]
      exact ⟨fun h1 => hk h1.symm, ih h⟩

/-- Looking up another key is not affected by an insertion. -/
theorem component_map_type.find_place_ne {σ : Type} (m : component_map_type σ)
    (type other : component_type) (e : component_factory_type σ) (h : type ≠ other) :
    (m.place type e).find other = m.find other := by
  induction m with
  | nil => simp [component_map_type.place, component_map_type.find, h]
  | cons p rest ih =>
    obtain ⟨k, x⟩ := p
    simp only [component_map_type.place]
    split_ifs with hlt
    · simp [component_map_type.find, h]
    · simp only [component_map_type.find, ih]

/-- The keys after an insertion are the new key and the old keys. -/
theorem component_map_type.keys_place {σ : Type} (m : component_map_type σ)
    (type : component_type) (e : component_factory_type σ) :
    (m.place type e).keys.Perm (type :: m.keys) := by
  induction m with
  | nil => simp [component_map_type.place, component_map_type.keys]
  | cons p rest ih =>
    obtain ⟨k, x⟩ := p
    simp only [component_map_type.place]
    split_ifs with hlt
    · simp [component_map_type.keys]
    · simp only [component_map_type.keys, List.map_cons] at ih ⊢
      exact (List.Perm.cons k ih).trans (List.Perm.swap type k _)

theorem registry_extends.refl {σ : Type} (m : component_map_type σ) : registry_extends m m :=
  ⟨fun _ _ h => h, fun h => h, fun h => h⟩

theorem registry_extends.trans {σ : Type} {m m1 m2 : component_map_type σ}
    (h1 : registry_extends m m1) (h2 : registry_extends m1 m2) : registry_extends m m2 :=
  ⟨fun t e h => h2.1 t e (h1.1 t e h), fun h => h2.2.1 (h1.2.1 h), fun h => h2.2.2 (h1.2.2 h)⟩

theorem registry_extends.insert {σ : Type} (m : component_map_type σ) (type : component_type)
    (e : component_factory_type σ) (h0 : type ≠ 0) :
    registry_extends m (m.insert type e).1 := by
  unfold component_map_type.insert
  rcases hfind : m.find type with _ | x
  · have hnot := component_map_type.not_mem_keys_of_find_eq_none m type hfind
    refine ⟨?_, ?_, ?_⟩
    · intro t x hx
      have hne : type ≠ t := by
        rintro rfl
        rw [hfind] at hx
        cases hx
      simp only
      rw [component_map_type.find_place_ne m type t e hne]
      exact hx
    · intro hnodup
      exact ((component_map_type.keys_place m type e).nodup_iff).mpr
        (List.nodup_cons.mpr ⟨hnot, hnodup⟩)
    · intro hz hmem
      have := (component_map_type.keys_place m type e).mem_iff.mp hmem
      rcases List.mem_cons.mp this with h | h
      · exact h0 h.symm
      · exact hz h
  · exact registry_extends.refl m

/-! ## Facts about the loader -/

theorem runtime_support.load_component_extends {σ : Type} (env : plugin_environment σ)
    (rs : runtime_support σ) (ini : configuration) (instance_name component lib : String)
    (locality : gid_type) (isdefault : Bool) (w : σ) :
    registry_extends rs.components_
      (rs.load_component env ini instance_name component lib locality isdefault w).self.components_
      := by
  unfold runtime_support.load_component
  split_ifs with hext
  · exact registry_extends.refl _
  · rcases env.dll_open lib component w with ⟨e | d, w1⟩
    · exact registry_extends.refl _
    · simp only
      rcases env.plugin_create d instance_name ini.settings
          (ini.component_section instance_name) w1 with ⟨e | factory, w2⟩
      · exact registry_extends.refl _
      · simp only
        rcases factory.get_component_type locality w2 with ⟨e | t, w3⟩
        · exact registry_extends.refl _
        · simp only
          split_ifs with ht
          · exact registry_extends.refl _
          · have hins := registry_extends.insert rs.components_ t (some factory, d) ht
            rcases hi : rs.components_.insert t (some factory, d) with ⟨m, b⟩
            rw [hi] at hins
            cases b <;> exact hins

theorem runtime_support.load_section_extends {σ : Type} (env : plugin_environment σ)
    (rs : runtime_support σ) (ini : configuration) (locality : gid_type) (sec : ini_section)
    (w : σ) :
    registry_extends rs.components_ (rs.load_section env ini locality sec w).self.components_ := by
  unfold runtime_support.load_section
  simp only
  split_ifs <;>
    first
    | exact registry_extends.refl _
    | exact runtime_support.load_component_extends _ _ _ _ _ _ _ _ _
    | exact (runtime_support.load_component_extends _ _ _ _ _ _ _ _ _).trans
        (runtime_support.load_component_extends _ _ _ _ _ _ _ _ _)

theorem runtime_support.load_sections_extends {σ : Type} (env : plugin_environment σ)
    (rs : runtime_support σ) (ini : configuration) (locality : gid_type)
    (secs : List ini_section) (w : σ) :
    registry_extends rs.components_
      (rs.load_sections env ini locality secs w).self.components_ := by
  induction secs generalizing rs w with
  | nil => exact registry_extends.refl _
  | cons sec rest ih =>
    simp only [runtime_support.load_sections]
    exact (runtime_support.load_section_extends env rs ini locality sec w).trans (ih _ _)

/-- Loading `pre ++ post` is loading `pre`, then `post` from where that ends. -/
theorem runtime_support.load_sections_append {σ : Type} (env : plugin_environment σ)
    (rs : runtime_support σ) (ini : configuration) (locality : gid_type)
    (pre post : List ini_section) (w : σ) :
    rs.load_sections env ini locality (pre ++ post) w =
      ⟨(), ((rs.load_sections env ini locality pre w).self.load_sections env ini locality post
              (rs.load_sections env ini locality pre w).world).self,
        ((rs.load_sections env ini locality pre w).self.load_sections env ini locality post
              (rs.load_sections env ini locality pre w).world).world,
        (rs.load_sections env ini locality pre w).trace ++
          ((rs.load_sections env ini locality pre w).self.load_sections env ini locality post
              (rs.load_sections env ini locality pre w).world).trace⟩ := by
  induction pre generalizing rs w with
  | nil => simp [runtime_support.load_sections]
  | cons sec rest ih =>
    simp only [List.cons_append, runtime_support.load_sections, List.append_eq, ih,
      List.append_assoc]

/-- The loader reads the INI tree only through `[settings]` and the section of
the instance it is loading. -/
theorem runtime_support.load_sections_congr {σ : Type} (env : plugin_environment σ)
    (rs : runtime_support σ) (ini ini1 : configuration) (locality : gid_type)
    (secs : List ini_section) (w : σ) (hset : ini.settings = ini1.settings)
    (hsec : ∀ sec ∈ secs, ini.component_section sec.name = ini1.component_section sec.name) :
    rs.load_sections env ini locality secs w = rs.load_sections env ini1 locality secs w := by
  have hcomp : ∀ (r : runtime_support σ) (nm component lib : String) (isdefault : Bool) (v : σ),
      ini.component_section nm = ini1.component_section nm →
      r.load_component env ini nm component lib locality isdefault v =
        r.load_component env ini1 nm component lib locality isdefault v := by
    intro r nm component lib isdefault v hnm
    unfold runtime_support.load_component
    rw [hset, hnm]
  induction secs generalizing rs w with
  | nil => rfl
  | cons sec rest ih =>
    have h1 : rs.load_section env ini locality sec w = rs.load_section env ini1 locality sec w := by
      unfold runtime_support.load_section
      simp only [hcomp _ _ _ _ _ _ (hsec sec (List.mem_cons_self _ _))]
    simp only [runtime_support.load_sections, h1]
    rw [ih _ _ (fun x hx => hsec x (List.mem_cons_of_mem _ hx))]

/-- An insertion under a key that is not there stores the entry under that key. -/
theorem component_map_type.find_place_self {σ : Type} (m : component_map_type σ)
    (type : component_type) (e : component_factory_type σ) (h : m.find type = none) :
    (m.place type e).find type = some e := by
  induction m with
  | nil => simp [component_map_type.place, component_map_type.find]
  | cons p rest ih =>
    obtain ⟨k, x⟩ := p
    simp only [component_map_type.find] at h
    by_cases hk : k = type
    · simp [hk] at h
    · simp only [hk, if_false] at h
      simp only [component_map_type.place]
      split_ifs with hlt
      · simp [component_map_type.find]
      · simp only [component_map_type.find, hk, if_false]
        exact ih h

/-- A module that opens and reports a non-zero type that is not registered yet
is stored under that type, with its factory and its module handle. -/
theorem runtime_support.load_component_registers {σ : Type} (env : plugin_environment σ)
    (rs : runtime_support σ) (ini : configuration) (instance_name component lib : String)
    (locality : gid_type) (isdefault : Bool) (w w1 w2 w3 : σ) (t : component_type)
    (d : dll) (factory : component_factory_base σ)
    (hfresh : rs.components_.find t = none) (ht : t ≠ 0)
    (hext : env.extension lib = env.HPX_SHARED_LIB_EXTENSION)
    (hopen : env.dll_open lib component w = (.ok d, w1))
    (hcreate : env.plugin_create d instance_name ini.settings
      (ini.component_section instance_name) w1 = (.ok factory, w2))
    (htype : factory.get_component_type locality w2 = (.ok t, w3)) :
    (rs.load_component env ini instance_name component lib locality isdefault w).value = true ∧
    (rs.load_component env ini instance_name component lib locality isdefault
      w).self.components_.find t = some (some factory, d) := by
  have hload : rs.load_component env ini instance_name component lib locality isdefault w =
      ⟨true, ⟨rs.components_.place t (some factory, d), rs.flags⟩, w3,
        [.dll_open lib component, .plugin_create lib instance_name,
         .get_component_type instance_name,
         .log .info ("dynamic loading succeeded: " ++ lib ++ ": " ++ instance_name
           ++ ": " ++ env.get_component_type_name t)]⟩ := by
    unfold runtime_support.load_component
    simp only [hext, ne_eq, not_true_eq_false, if_false, hopen, hcreate, htype, ht,
      component_map_type.insert, hfresh]
  rw [hload]
  exact ⟨rfl, component_map_type.find_place_self _ _ _ hfresh⟩

/-- A module that opens and reports a non-zero type that is registered already
is turned away: `load_component` returns false, logs the duplicate at error
level, lets go of the new factory and module and leaves the registry alone. -/
theorem runtime_support.load_component_duplicate {σ : Type} (env : plugin_environment σ)
    (rs : runtime_support σ) (ini : configuration) (instance_name component lib : String)
    (locality : gid_type) (isdefault : Bool) (w w1 w2 w3 : σ) (t : component_type)
    (first : component_factory_type σ) (d : dll) (factory : component_factory_base σ)
    (hfirst : rs.components_.find t = some first) (ht : t ≠ 0)
    (hext : env.extension lib = env.HPX_SHARED_LIB_EXTENSION)
    (hopen : env.dll_open lib component w = (.ok d, w1))
    (hcreate : env.plugin_create d instance_name ini.settings
      (ini.component_section instance_name) w1 = (.ok factory, w2))
    (htype : factory.get_component_type locality w2 = (.ok t, w3)) :
    rs.load_component env ini instance_name component lib locality isdefault w =
      ⟨false, rs, env.dll_close d (factory.dtor w3),
        [.dll_open lib component, .plugin_create lib instance_name,
         .get_component_type instance_name,
         .log .error ("duplicate component id: " ++ instance_name ++ ": "
           ++ env.get_component_type_name t),
         .factory_discarded instance_name, .dll_closed lib]⟩ := by
  unfold runtime_support.load_component
  simp only [hext, ne_eq, not_true_eq_false, if_false, hopen, hcreate, htype, ht,
    component_map_type.insert, hfirst]

/-- The round of a section, written with the names of its component and path. -/
theorem runtime_support.load_section_eq {σ : Type} (env : plugin_environment σ)
    (rs : runtime_support σ) (ini : configuration) (locality : gid_type) (sec : ini_section)
    (w : σ) :
    rs.load_section env ini locality sec w =
      if sec.disabled then
        ⟨(), rs, w, [.log .info ("dynamic loading disabled: " ++ sec.name)]⟩
      else if (rs.load_component env ini sec.name (sec.component env) (sec.lib_path env)
          locality sec.isdefault w).value then
        ⟨(), (rs.load_component env ini sec.name (sec.component env) (sec.lib_path env)
            locality sec.isdefault w).self,
          (rs.load_component env ini sec.name (sec.component env) (sec.lib_path env)
            locality sec.isdefault w).world,
          (rs.load_component env ini sec.name (sec.component env) (sec.lib_path env)
            locality sec.isdefault w).trace⟩
      else
        ⟨(), ((rs.load_component env ini sec.name (sec.component env) (sec.lib_path env)
            locality sec.isdefault w).self.load_component env ini sec.name (sec.component env)
            (env.append (sec.lib_path env) (sec.component env ++ env.HPX_SHARED_LIB_EXTENSION))
            locality sec.isdefault
            (rs.load_component env ini sec.name (sec.component env) (sec.lib_path env)
              locality sec.isdefault w).world).self,
          ((rs.load_component env ini sec.name (sec.component env) (sec.lib_path env)
            locality sec.isdefault w).self.load_component env ini sec.name (sec.component env)
            (env.append (sec.lib_path env) (sec.component env ++ env.HPX_SHARED_LIB_EXTENSION))
            locality sec.isdefault
            (rs.load_component env ini sec.name (sec.component env) (sec.lib_path env)
              locality sec.isdefault w).world).world,
          (rs.load_component env ini sec.name (sec.component env) (sec.lib_path env)
            locality sec.isdefault w).trace ++
          ((rs.load_component env ini sec.name (sec.component env) (sec.lib_path env)
            locality sec.isdefault w).self.load_component env ini sec.name (sec.component env)
            (env.append (sec.lib_path env) (sec.component env ++ env.HPX_SHARED_LIB_EXTENSION))
            locality sec.isdefault
            (rs.load_component env ini sec.name (sec.component env) (sec.lib_path env)
              locality sec.isdefault w).world).trace⟩ := rfl

/-- A probe of a path without the library suffix does nothing. -/
theorem runtime_support.load_component_no_suffix {σ : Type} (env : plugin_environment σ)
    (rs : runtime_support σ) (ini : configuration) (instance_name component lib : String)
    (locality : gid_type) (isdefault : Bool) (w : σ)
    (hext : env.extension lib ≠ env.HPX_SHARED_LIB_EXTENSION) :
    rs.load_component env ini instance_name component lib locality isdefault w =
      ⟨false, rs, w, []⟩ := by
  unfold runtime_support.load_component
  simp only [hext, ne_eq, not_false_eq_true, if_true]

/-- The round of a section whose module opens and reports a non-zero type that
is not registered yet stores the module's factory and handle under that type. -/
theorem runtime_support.load_section_registers {σ : Type} (env : plugin_environment σ)
    (rs : runtime_support σ) (ini : configuration) (locality : gid_type) (sec : ini_section)
    (lib : String) (w : σ) (t : component_type) (factory : component_factory_base σ) (d : dll)
    (hrep : section_reports env ini locality sec lib w t factory d) (ht : t ≠ 0)
    (hfresh : rs.components_.find t = none) :
    (rs.load_section env ini locality sec w).self.components_.find t =
      some (some factory, d) := by
  obtain ⟨hdis, hext, hlib, w1, w2, w3, hopen, hcreate, htype⟩ := hrep
  rw [runtime_support.load_section_eq]
  simp only [hdis, Bool.false_eq_true, if_false]
  rcases hlib with hlib | ⟨hno, hlib⟩
  · subst hlib
    have h := runtime_support.load_component_registers env rs ini sec.name (sec.component env)
      (sec.lib_path env) locality sec.isdefault w w1 w2 w3 t d factory hfresh ht hext hopen
      hcreate htype
    simp only [h.1, if_true]
    exact h.2
  · have h0 := runtime_support.load_component_no_suffix env rs ini sec.name
      (sec.component env) (sec.lib_path env) locality sec.isdefault w hno
    simp only [h0, Bool.false_eq_true, if_false]
    rw [← hlib]
    exact (runtime_support.load_component_registers env rs ini sec.name (sec.component env)
      lib locality sec.isdefault w w1 w2 w3 t d factory hfresh ht hext hopen hcreate htype).2

/-- The round of a section whose module opens and reports a non-zero type that
is registered already: the probe of the module returns false with the duplicate
log, and that log is in the trace of the round. -/
theorem runtime_support.load_section_duplicate {σ : Type} (env : plugin_environment σ)
    (rs : runtime_support σ) (ini : configuration) (locality : gid_type) (sec : ini_section)
    (lib : String) (w : σ) (t : component_type) (factory : component_factory_base σ) (d : dll)
    (first : component_factory_type σ)
    (hrep : section_reports env ini locality sec lib w t factory d) (ht : t ≠ 0)
    (hfirst : rs.components_.find t = some first) :
    ((rs.load_component env ini sec.name (sec.component env) lib locality sec.isdefault
        w).value = false ∧
      (rs.load_component env ini sec.name (sec.component env) lib locality sec.isdefault
        w).self = rs ∧
      (rs.load_component env ini sec.name (sec.component env) lib locality sec.isdefault
        w).trace =
        [.dll_open lib (sec.component env), .plugin_create lib sec.name,
         .get_component_type sec.name,
         .log .error ("duplicate component id: " ++ sec.name ++ ": "
           ++ env.get_component_type_name t),
         .factory_discarded sec.name, .dll_closed lib]) ∧
    event.log .error ("duplicate component id: " ++ sec.name ++ ": "
        ++ env.get_component_type_name t) ∈ (rs.load_section env ini locality sec w).trace := by
  obtain ⟨hdis, hext, hlib, w1, w2, w3, hopen, hcreate, htype⟩ := hrep
  have hdup := runtime_support.load_component_duplicate env rs ini sec.name (sec.component env)
    lib locality sec.isdefault w w1 w2 w3 t first d factory hfirst ht hext hopen hcreate htype
  refine ⟨by rw [hdup]; exact ⟨rfl, rfl, rfl⟩, ?_⟩
  rw [runtime_support.load_section_eq]
  simp only [hdis, Bool.false_eq_true, if_false]
  rcases hlib with hlib | ⟨hno, hlib⟩
  · subst hlib
    simp only [hdup, Bool.false_eq_true, if_false, List.mem_append, List.mem_cons, true_or,
      or_true]
  · have h0 := runtime_support.load_component_no_suffix env rs ini sec.name
      (sec.component env) (sec.lib_path env) locality sec.isdefault w hno
    simp only [h0, Bool.false_eq_true, if_false, List.nil_append]
    rw [← hlib, hdup]
    simp

/-- Loading `pre ++ sec :: rest`: the registry is that of loading `rest` after
the round of `sec`, and the trace is made of the three traces. -/
theorem runtime_support.load_sections_split {σ : Type} (env : plugin_environment σ)
    (rs : runtime_support σ) (ini : configuration) (locality : gid_type)
    (pre rest : List ini_section) (sec : ini_section) (w : σ) :
    (rs.load_sections env ini locality (pre ++ sec :: rest) w).self =
      (((rs.load_sections env ini locality pre w).self.load_section env ini locality sec
          (rs.load_sections env ini locality pre w).world).self.load_sections env ini locality
        rest
        ((rs.load_sections env ini locality pre w).self.load_section env ini locality sec
          (rs.load_sections env ini locality pre w).world).world).self ∧
    (rs.load_sections env ini locality (pre ++ sec :: rest) w).trace =
      (rs.load_sections env ini locality pre w).trace ++
        (((rs.load_sections env ini locality pre w).self.load_section env ini locality sec
          (rs.load_sections env ini locality pre w).world).trace ++
        (((rs.load_sections env ini locality pre w).self.load_section env ini locality sec
            (rs.load_sections env ini locality pre w).world).self.load_sections env ini
          locality rest
          ((rs.load_sections env ini locality pre w).self.load_section env ini locality sec
            (rs.load_sections env ini locality pre w).world).world).trace) := by
  rw [runtime_support.load_sections_append]
  exact ⟨rfl, rfl⟩

/-! ## Scenarios of the loader, evaluated -/

/-- Two modules A and B that report the same type 42: one key is registered. -/
theorem scenario_duplicate_registry :
    (runtime_support.construct test_environment ⟨some [section_A, section_B], none⟩
      ⟨1, 0⟩ 0).self.components_.keys = [42] := by decide

/-- The trace of loading A and B: A succeeds on the second probe, B is a duplicate. -/
theorem scenario_duplicate_trace :
    (runtime_support.construct test_environment ⟨some [section_A, section_B], none⟩
    ⟨1, 0⟩ 0).trace =
    [.dll_open "/opt/libs/libhpx_component_A.so" "libhpx_component_A",
     .plugin_create "/opt/libs/libhpx_component_A.so" "A",
     .get_component_type "A",
     .log .info "dynamic loading succeeded: /opt/libs/libhpx_component_A.so: A: stub",
     .dll_open "/opt/libs/libhpx_component_B.so" "libhpx_component_B",
     .plugin_create "/opt/libs/libhpx_component_B.so" "B",
     .get_component_type "B",
     .log .error "duplicate component id: B: stub",
     .factory_discarded "B",
     .dll_closed "/opt/libs/libhpx_component_B.so"] := by decide

/-- Scenario S4: A is disabled and only logs; B is loaded. -/
theorem scenario_S4_trace :
    (runtime_support.construct test_environment ⟨some [section_A_disabled, section_B], none⟩
    ⟨1, 0⟩ 0).trace =
    [.log .info "dynamic loading disabled: A",
     .dll_open "/opt/libs/libhpx_component_B.so" "libhpx_component_B",
     .plugin_create "/opt/libs/libhpx_component_B.so" "B",
     .get_component_type "B",
     .log .info "dynamic loading succeeded: /opt/libs/libhpx_component_B.so: B: stub"] := by
  decide

/-! ## Instance operations: the contracts -/

/-- C1: create_component fails with bad_component_type when the type has no
registered factory (leaving world and trace untouched), otherwise its result is
exactly what the registered factory's create(count) returns; the registry is
unchanged in both cases. -/
theorem create_component_contract {σ : Type} (appl : applier σ) (rs : runtime_support σ)
    (type : component_type) (count : Nat) (w : σ) :
    (rs.create_component appl type count w).self = rs ∧
    (rs.factory_of type = none →
      (rs.create_component appl type count w).result = .error .bad_component_type ∧
      (rs.create_component appl type count w).world = w ∧
      (rs.create_component appl type count w).trace = []) ∧
    (∀ factory, rs.factory_of type = some factory →
      (rs.create_component appl type count w).result = (factory.create count w).1 ∧
      (rs.create_component appl type count w).world = (factory.create count w).2) := by
  unfold runtime_support.create_component runtime_support.factory_of
  rcases hfind : rs.components_.find type with _ | ⟨_ | f, d⟩
  · simp
  · simp
  · rcases hc : f.create count w with ⟨_ | id, w1⟩
    · simp [hc]
    · simp only [hc]
      refine ⟨?_, ?_, ?_⟩
      · split_ifs <;> rfl
      · intro h; cases h
      · intro factory hf
        simp only [Option.some.injEq] at hf
        subst hf
        rw [hc]
        split_ifs <;> exact ⟨rfl, rfl⟩

/-- C1 on scenario S2: with the stub at type 42, create_component(42, 3) gives
GlobalId(1,100), and create_component(7, 3) fails with bad_component_type. -/
theorem create_component_contract_witness :
    (stub_service.create_component stub_applier 42 3 0).result = .ok ⟨1, 100⟩ ∧
    (stub_service.create_component stub_applier 7 3 0).result = .error .bad_component_type :=
  ⟨((create_component_contract stub_applier stub_service 42 3 0).2.2 stub_factory rfl).1,
   ((create_component_contract stub_applier stub_service 7 3 0).2.1 rfl).1⟩

/-- C2: free_component(T, g) for a type T that is not component_memory_block and
is not a key of the registry fails with bad_component_type, makes no call at all
(in particular no destroy on any factory), and leaves registry and world as they
were. -/
theorem free_component_unknown_type {σ : Type} (appl : applier σ) (rs : runtime_support σ)
    (type : component_type) (gid : gid_type) (w : σ)
    (hblock : type ≠ appl.component_memory_block) (hkey : type ∉ rs.components_.keys) :
    (rs.free_component appl type gid w).result = .error .bad_component_type ∧
    (rs.free_component appl type gid w).self = rs ∧
    (rs.free_component appl type gid w).world = w ∧
    (rs.free_component appl type gid w).trace = [] ∧
    (∀ t g, event.factory_destroy t g ∉ (rs.free_component appl type gid w).trace) := by
  have hfind := component_map_type.find_eq_none_of_not_mem_keys rs.components_ type hkey
  simp [runtime_support.free_component, hblock, hfind]

/-- C2 on the stub service: freeing a component of the unregistered type 7. -/
theorem free_component_unknown_type_witness :
    (7 : component_type) ≠ stub_applier.component_memory_block ∧
    (7 : component_type) ∉ stub_service.components_.keys ∧
    (stub_service.free_component stub_applier 7 ⟨1, 100⟩ 0).result = .error .bad_component_type ∧
    (stub_service.free_component stub_applier 7 ⟨1, 100⟩ 0).self = stub_service :=
  ⟨by decide, by decide,
   (free_component_unknown_type stub_applier stub_service 7 ⟨1, 100⟩ 0
      (by decide) (by decide)).1,
   (free_component_unknown_type stub_applier stub_service 7 ⟨1, 100⟩ 0
      (by decide) (by decide)).2.1⟩

/-- C3: free_component(component_memory_block, g) destroys a memory block if and
only if g resolves to the local locality, and then it destroys exactly the block
at the resolved address; if g does not resolve or resolves to another locality
the call fails with unknown_component_address, destroys no block and calls no
factory. The registry is never touched. -/
theorem free_component_memory_block {σ : Type} (appl : applier σ) (rs : runtime_support σ)
    (gid : gid_type) (w : σ) :
    ((∃ a, event.memory_block_destroy a ∈
        (rs.free_component appl appl.component_memory_block gid w).trace) ↔
      ∃ addr, (appl.resolve gid w).1 = some addr ∧
        appl.here (appl.resolve gid w).2 = addr.locality_) ∧
    (∀ addr, (appl.resolve gid w).1 = some addr →
      appl.here (appl.resolve gid w).2 = addr.locality_ →
      (rs.free_component appl appl.component_memory_block gid w).result = .ok () ∧
      (rs.free_component appl appl.component_memory_block gid w).trace.filter
        event.is_memory_block_destroy = [.memory_block_destroy addr.address_] ∧
      (rs.free_component appl appl.component_memory_block gid w).world =
        appl.memory_block_destroy addr.address_ (appl.resolve gid w).2) ∧
    (((appl.resolve gid w).1 = none ∨
        ∃ addr, (appl.resolve gid w).1 = some addr ∧
          appl.here (appl.resolve gid w).2 ≠ addr.locality_) →
      (rs.free_component appl appl.component_memory_block gid w).result =
        .error .unknown_component_address ∧
      (rs.free_component appl appl.component_memory_block gid w).trace = [.resolve gid] ∧
      (rs.free_component appl appl.component_memory_block gid w).world =
        (appl.resolve gid w).2) ∧
    (∀ e ∈ (rs.free_component appl appl.component_memory_block gid w).trace,
      e.is_factory_call = false) ∧
    (rs.free_component appl appl.component_memory_block gid w).self = rs := by
  unfold runtime_support.free_component
  rcases hr : appl.resolve gid w with ⟨_ | addr, w1⟩
  · simp [event.is_factory_call]
  · by_cases hh : appl.here w1 = addr.locality_
    · simp [hh, event.is_memory_block_destroy, event.is_factory_call]
    · simp [hh, event.is_factory_call]

/-- C3 on locality 1: GlobalId(1,7) is local and its block at 4096 is destroyed;
GlobalId(2,7) lives on locality 2 and GlobalId(9,9) is unknown, so both calls
fail with unknown_component_address after the resolve call alone. -/
theorem free_component_memory_block_witness :
    ((stub_service.free_component stub_applier 2 ⟨1, 7⟩ 0).result = .ok () ∧
      (stub_service.free_component stub_applier 2 ⟨1, 7⟩ 0).trace.filter
        event.is_memory_block_destroy = [.memory_block_destroy 4096]) ∧
    ((stub_service.free_component stub_applier 2 ⟨2, 7⟩ 0).result =
        .error .unknown_component_address ∧
      (stub_service.free_component stub_applier 2 ⟨2, 7⟩ 0).trace = [.resolve ⟨2, 7⟩]) ∧
    ((stub_service.free_component stub_applier 2 ⟨9, 9⟩ 0).result =
        .error .unknown_component_address ∧
      (stub_service.free_component stub_applier 2 ⟨9, 9⟩ 0).trace = [.resolve ⟨9, 9⟩]) :=
  ⟨⟨((free_component_memory_block stub_applier stub_service ⟨1, 7⟩ 0).2.1
        ⟨1, 2, 4096⟩ rfl rfl).1,
    ((free_component_memory_block stub_applier stub_service ⟨1, 7⟩ 0).2.1
        ⟨1, 2, 4096⟩ rfl rfl).2.1⟩,
   ⟨((free_component_memory_block stub_applier stub_service ⟨2, 7⟩ 0).2.2.1
        (Or.inr ⟨⟨2, 2, 8192⟩, rfl, by decide⟩)).1,
    ((free_component_memory_block stub_applier stub_service ⟨2, 7⟩ 0).2.2.1
        (Or.inr ⟨⟨2, 2, 8192⟩, rfl, by decide⟩)).2.1⟩,
   ⟨((free_component_memory_block stub_applier stub_service ⟨9, 9⟩ 0).2.2.1 (Or.inl rfl)).1,
    ((free_component_memory_block stub_applier stub_service ⟨9, 9⟩ 0).2.2.1 (Or.inl rfl)).2.1⟩⟩

/-! ## Teardown: the order of releases -/

theorem tidy_loop_erases_all {σ : Type} (dll_close : dll → σ → σ) (m : component_map_type σ)
    (w : σ) : (tidy_loop dll_close m w).1 = [] := by
  induction m generalizing w with
  | nil => rfl
  | cons p rest ih =>
    obtain ⟨k, _ | f, d⟩ := p
    · simp only [tidy_loop]; exact ih _
    · simp only [tidy_loop]
      split_ifs
      · exact ih _
      · exact ih _

/-- Every event of a teardown is about a key of the registry. -/
theorem tidy_loop_keys {σ : Type} (dll_close : dll → σ → σ) (m : component_map_type σ)
    (w : σ) : ∀ e ∈ (tidy_loop dll_close m w).2.2, ∃ k ∈ m.keys, e.teardown_key = some k := by
  induction m generalizing w with
  | nil => intro e he; simp [tidy_loop] at he
  | cons p rest ih =>
    obtain ⟨k, _ | f, d⟩ := p
    · intro e he
      simp only [tidy_loop, List.mem_cons] at he
      rcases he with rfl | he
      · exact ⟨k, by simp [component_map_type.keys], rfl⟩
      · obtain ⟨k1, hk1, h⟩ := ih _ e he
        exact ⟨k1, by simp only [component_map_type.keys, List.map_cons, List.mem_cons]; exact Or.inr hk1, h⟩
    · intro e he
      simp only [tidy_loop] at he
      split_ifs at he
      · simp only [List.mem_cons] at he
        rcases he with rfl | rfl | rfl | he
        · exact ⟨k, by simp [component_map_type.keys], rfl⟩
        · exact ⟨k, by simp [component_map_type.keys], rfl⟩
        · exact ⟨k, by simp [component_map_type.keys], rfl⟩
        · obtain ⟨k1, hk1, h⟩ := ih _ e he
          exact ⟨k1, by simp only [component_map_type.keys, List.map_cons, List.mem_cons]; exact Or.inr hk1, h⟩
      · simp only [List.mem_cons] at he
        rcases he with rfl | rfl | he
        · exact ⟨k, by simp [component_map_type.keys], rfl⟩
        · exact ⟨k, by simp [component_map_type.keys], rfl⟩
        · obtain ⟨k1, hk1, h⟩ := ih _ e he
          exact ⟨k1, by simp only [component_map_type.keys, List.map_cons, List.mem_cons]; exact Or.inr hk1, h⟩

/-- Tearing down `pre ++ m` is tearing down `pre`, then `m` in the world that leaves. -/
theorem tidy_loop_append {σ : Type} (dll_close : dll → σ → σ) (pre m : component_map_type σ)
    (w : σ) :
    (tidy_loop dll_close (pre ++ m) w).2.2 =
      (tidy_loop dll_close pre w).2.2 ++
        (tidy_loop dll_close m (tidy_loop dll_close pre w).2.1).2.2 := by
  induction pre generalizing w with
  | nil => simp [tidy_loop]
  | cons p rest ih =>
    obtain ⟨k, _ | f, d⟩ := p
    · simp only [List.cons_append, tidy_loop, List.append_eq, ih]
    · simp only [List.cons_append, tidy_loop, List.append_eq]
      split_ifs
      · simp only [ih, List.cons_append]
      · simp only [ih, List.cons_append]

/-- Events that come before both `a` and `b` do not change their order. -/
theorem occurs_before_append (a b : event) (pre tr : List event) (ha : a ∉ pre)
    (hb : b ∉ pre) : occurs_before a b (pre ++ tr) = occurs_before a b tr := by
  induction pre with
  | nil => rfl
  | cons x rest ih =>
    simp only [List.mem_cons, not_or] at ha hb
    have hxb : ¬ x = b := fun h => hb.1 h.symm
    have hxa : ¬ x = a := fun h => ha.1 h.symm
    simp only [List.cons_append, occurs_before, hxb, hxa, if_false]
    exact ih ha.2 hb.2

/-! ## Lifecycle controller: facts about the step function -/

/-- The shapes a step can have. -/
theorem system.step_cases (s s1 : system) (i : Nat) (h : s.step i = some s1) :
    s.aborted = false ∧ ∃ t, s.threads[i]? = some t ∧
      ((t.at_ = .start ∧ s.mtx_ = none ∧
          s1 = ⟨s.flags, some i, false, s.threads.set i ⟨t.op, .locked⟩⟩) ∨
       (t.at_ = .locked ∧ s.mtx_ = some i ∧
          s1 = ⟨(t.op.body s.flags).flags, none,
            decide ((t.op.body s.flags).next = .assert_failed),
            (wake_all (t.op.body s.flags).notify_all s.threads).set i
              ⟨t.op, (t.op.body s.flags).next⟩⟩) ∨
       ((∃ c, t.at_ = .waiting c) ∧
          s1 = ⟨s.flags, s.mtx_, false, s.threads.set i ⟨t.op, .notified⟩⟩) ∨
       (t.at_ = .notified ∧ s.mtx_ = none ∧
          s1 = ⟨s.flags, some i, false, s.threads.set i ⟨t.op, .relocked⟩⟩) ∨
       (t.at_ = .relocked ∧ s.mtx_ = some i ∧
          s1 = ⟨s.flags, none, false, s.threads.set i ⟨t.op, .returned⟩⟩)) := by
  unfold system.step at h
  by_cases hab : s.aborted = true
  · simp [hab] at h
  · simp only [hab, Bool.false_eq_true, if_false] at h
    refine ⟨by simpa using hab, ?_⟩
    rcases ht : s.threads[i]? with _ | t
    · simp [ht] at h
    · refine ⟨t, rfl, ?_⟩
      simp only [ht] at h
      rcases hpc : t.at_ with _ | _ | c | _ | _ | _ | _ <;> simp only [hpc] at h
      · by_cases hm : s.mtx_ = none
        · simp only [hm, if_true, Option.some.injEq] at h
          exact Or.inl ⟨rfl, hm, h.symm⟩
        · simp [hm] at h
      · by_cases hm : s.mtx_ = some i
        · simp only [hm, if_true, Option.some.injEq] at h
          exact Or.inr (Or.inl ⟨rfl, hm, h.symm⟩)
        · simp [hm] at h
      · simp only [Option.some.injEq] at h
        exact Or.inr (Or.inr (Or.inl ⟨⟨c, rfl⟩, h.symm⟩))
      · by_cases hm : s.mtx_ = none
        · simp only [hm, if_true, Option.some.injEq] at h
          exact Or.inr (Or.inr (Or.inr (Or.inl ⟨rfl, hm, h.symm⟩)))
        · simp [hm] at h
      · by_cases hm : s.mtx_ = some i
        · simp only [hm, if_true, Option.some.injEq] at h
          exact Or.inr (Or.inr (Or.inr (Or.inr ⟨rfl, hm, h.symm⟩)))
        · simp [hm] at h
      · simp at h
      · simp at h

/-- A thread of the list after `notify_all` is a thread of the list before, or
such a blocked thread now woken. -/
theorem mem_wake_all (c : Option condition) (ts : List thread) (x : thread)
    (h : x ∈ wake_all c ts) :
    x ∈ ts ∨ ∃ t ∈ ts, (∃ c1, t.at_ = .waiting c1) ∧ x = ⟨t.op, .notified⟩ := by
  unfold wake_all at h
  rw [List.mem_map] at h
  obtain ⟨t, ht, hx⟩ := h
  by_cases hc : some t.at_ = c.map pc.waiting
  · right
    refine ⟨t, ht, ?_, by simpa [hc] using hx.symm⟩
    cases c with
    | none => simp at hc
    | some c1 => exact ⟨c1, by simpa using hc⟩
  · left
    simp only [hc, if_false] at hx
    exact hx ▸ ht

theorem stop_requested_first.step {s s1 : system} (inv : stop_requested_first s) (i : Nat)
    (h : s.step i = some s1) : stop_requested_first s1 := by
  obtain ⟨-, t, ht, hcase⟩ := system.step_cases s s1 i h
  have htmem : t ∈ s.threads := List.getElem?_mem ht
  have htop := inv.ops t htmem
  rcases hcase with ⟨hpc, hm, rfl⟩ | ⟨hpc, hm, rfl⟩ | ⟨⟨c, hpc⟩, rfl⟩ | ⟨hpc, hm, rfl⟩ |
    ⟨hpc, hm, rfl⟩
  · -- the thread takes the mutex
    refine ⟨?_, rfl, ?_, ?_, ?_, ?_⟩
    · intro x hx
      rcases List.mem_or_eq_of_mem_set hx with hx | rfl
      · exact inv.ops x hx
      · exact htop
    · intro x hx
      rcases List.mem_or_eq_of_mem_set hx with hx | rfl
      · exact inv.no_failure x hx
      · simp
    · rcases inv.requested with hs | ⟨-, j, hj, -⟩
      · exact Or.inl hs
      · rw [hm] at hj; cases hj
    · intro hx
      rcases List.mem_or_eq_of_mem_set hx with hx | hx
      · exact inv.confirmed hx
      · simp at hx
    · intro x hx hop
      rcases List.mem_or_eq_of_mem_set hx with hx | rfl
      · exact inv.direct x hx hop
      · simp
  · -- the thread runs the body of its call
    have hmem : ∀ x, x ∈ (wake_all (t.op.body s.flags).notify_all s.threads).set i
        ⟨t.op, (t.op.body s.flags).next⟩ →
        x ∈ s.threads ∨ (∃ u ∈ s.threads, (∃ c1, u.at_ = .waiting c1) ∧ x = ⟨u.op, .notified⟩) ∨
          x = ⟨t.op, (t.op.body s.flags).next⟩ := by
      intro x hx
      rcases List.mem_or_eq_of_mem_set hx with hx | rfl
      · rcases mem_wake_all _ _ _ hx with hx | hx
        · exact Or.inl hx
        · exact Or.inr (Or.inl hx)
      · exact Or.inr (Or.inr rfl)
    -- the flags and the continuation the body leaves
    have hbody : (t.op.body s.flags).flags.stopped_ = true ∧
        (t.op.body s.flags).next ≠ .assert_failed ∧
        (s.flags.terminated_ = true → (t.op.body s.flags).flags.terminated_ = true) ∧
        (t.op = .stopped → (t.op.body s.flags).flags.terminated_ = true ∧
          (t.op.body s.flags).next = .returned) := by
      rcases htop with hop | hop
      · rw [hop]
        rcases inv.requested with hs | ⟨hterm, -⟩
        · simp [call.body, lifecycle.stop, hs]
        · cases hst : s.flags.stopped_ <;> simp [call.body, lifecycle.stop, hst, hterm]
      · rw [hop]
        rcases inv.requested with hs | ⟨-, j, hj, hjt⟩
        · cases hte : s.flags.terminated_ <;> simp [call.body, lifecycle.stopped, hs, hte]
        · rw [hm] at hj
          cases hj
          rw [ht] at hjt
          cases hjt
          cases hop
    refine ⟨?_, ?_, ?_, Or.inl hbody.1, ?_, ?_⟩
    · intro x hx
      rcases hmem x hx with hx | ⟨u, hu, -, rfl⟩ | rfl
      · exact inv.ops x hx
      · exact inv.ops u hu
      · exact htop
    · simpa using hbody.2.1
    · intro x hx
      rcases hmem x hx with hx | ⟨u, hu, -, rfl⟩ | rfl
      · exact inv.no_failure x hx
      · simp
      · exact hbody.2.1
    · intro hx
      rcases hmem _ hx with hx | ⟨u, hu, -, hx⟩ | hx
      · exact hbody.2.2.1 (inv.confirmed hx)
      · simp at hx
      · have hop : t.op = .stopped := by
          have := congrArg thread.op hx
          exact this.symm
        exact (hbody.2.2.2 hop).1
    · intro x hx hop
      rcases hmem x hx with hx | ⟨u, hu, ⟨c1, hc1⟩, rfl⟩ | rfl
      · exact inv.direct x hx hop
      · have := inv.direct u hu hop
        rw [hc1] at this
        simp at this
      · exact Or.inr (Or.inr (hbody.2.2.2 hop).2)
  · -- a spurious wake-up
    have hnot : t.op ≠ .stopped := by
      intro hop
      have := inv.direct t htmem hop
      rw [hpc] at this
      simp at this
    refine ⟨?_, rfl, ?_, ?_, ?_, ?_⟩
    · intro x hx
      rcases List.mem_or_eq_of_mem_set hx with hx | rfl
      · exact inv.ops x hx
      · exact htop
    · intro x hx
      rcases List.mem_or_eq_of_mem_set hx with hx | rfl
      · exact inv.no_failure x hx
      · simp
    · rcases inv.requested with hs | ⟨hterm, j, hj, hjt⟩
      · exact Or.inl hs
      · refine Or.inr ⟨hterm, j, hj, ?_⟩
        have hij : i ≠ j := by
          rintro rfl
          rw [ht] at hjt
          cases hjt
          cases hpc
        rw [List.getElem?_set_ne hij]
        exact hjt
    · intro hx
      rcases List.mem_or_eq_of_mem_set hx with hx | hx
      · exact inv.confirmed hx
      · simp at hx
    · intro x hx hop
      rcases List.mem_or_eq_of_mem_set hx with hx | rfl
      · exact inv.direct x hx hop
      · exact absurd hop hnot
  · -- the woken thread takes the mutex again
    have hnot : t.op ≠ .stopped := by
      intro hop
      have := inv.direct t htmem hop
      rw [hpc] at this
      simp at this
    refine ⟨?_, rfl, ?_, ?_, ?_, ?_⟩
    · intro x hx
      rcases List.mem_or_eq_of_mem_set hx with hx | rfl
      · exact inv.ops x hx
      · exact htop
    · intro x hx
      rcases List.mem_or_eq_of_mem_set hx with hx | rfl
      · exact inv.no_failure x hx
      · simp
    · rcases inv.requested with hs | ⟨-, j, hj, -⟩
      · exact Or.inl hs
      · rw [hm] at hj; cases hj
    · intro hx
      rcases List.mem_or_eq_of_mem_set hx with hx | hx
      · exact inv.confirmed hx
      · simp at hx
    · intro x hx hop
      rcases List.mem_or_eq_of_mem_set hx with hx | rfl
      · exact inv.direct x hx hop
      · exact absurd hop hnot
  · -- the call returns
    have hnot : t.op ≠ .stopped := by
      intro hop
      have := inv.direct t htmem hop
      rw [hpc] at this
      simp at this
    refine ⟨?_, rfl, ?_, ?_, ?_, ?_⟩
    · intro x hx
      rcases List.mem_or_eq_of_mem_set hx with hx | rfl
      · exact inv.ops x hx
      · exact htop
    · intro x hx
      rcases List.mem_or_eq_of_mem_set hx with hx | rfl
      · exact inv.no_failure x hx
      · simp
    · rcases inv.requested with hs | ⟨-, j, hj, hjt⟩
      · exact Or.inl hs
      · rw [hm] at hj
        cases hj
        rw [ht] at hjt
        cases hjt
        cases hpc
    · intro hx
      rcases List.mem_or_eq_of_mem_set hx with hx | hx
      · exact inv.confirmed hx
      · have hop : t.op = .stopped := (congrArg thread.op hx).symm
        exact absurd hop hnot
    · intro x hx hop
      rcases List.mem_or_eq_of_mem_set hx with hx | rfl
      · exact inv.direct x hx hop
      · exact absurd hop hnot

theorem stop_requested_first.run_schedule {s : system} (inv : stop_requested_first s)
    (sched : List Nat) (s1 : system) (h : s.run_schedule sched = some s1) :
    stop_requested_first s1 := by
  induction sched generalizing s with
  | nil =>
    simp only [system.run_schedule, Option.some.injEq] at h
    exact h ▸ inv
  | cons i rest ih =>
    simp only [system.run_schedule] at h
    rcases hs : s.step i with _ | s2
    · simp [hs] at h
    · rw [hs] at h
      exact ih (inv.step i hs) h

/-- The state after a `stop()` thread has taken the mutex as the first step. -/
theorem stop_requested_first.init (ops : List call)
    (hops : ∀ c ∈ ops, c = .stop ∨ c = .stopped) (i : Nat) (hfirst : ops[i]? = some .stop)
    (s1 : system) (h : (system.init ops).step i = some s1) : stop_requested_first s1 := by
  obtain ⟨-, t, ht, hcase⟩ := system.step_cases _ s1 i h
  have hti : (ops.map fun c => (⟨c, .start⟩ : thread))[i]? = some t := ht
  rw [List.getElem?_map, hfirst] at hti
  simp only [Option.map_some', Option.some.injEq] at hti
  subst hti
  have hstart : ∀ x ∈ (system.init ops).threads, x.at_ = .start ∧ (x.op = .stop ∨ x.op = .stopped) := by
    intro x hx
    simp only [system.init, List.mem_map] at hx
    obtain ⟨c, hc, rfl⟩ := hx
    exact ⟨rfl, hops c hc⟩
  have hlen : i < (system.init ops).threads.length := by
    rcases Nat.lt_or_ge i (system.init ops).threads.length with hlt | hge
    · exact hlt
    · rw [List.getElem?_eq_none hge] at ht; cases ht
  rcases hcase with ⟨-, -, rfl⟩ | ⟨hpc, -, -⟩ | ⟨⟨c, hpc⟩, -⟩ | ⟨hpc, -, -⟩ | ⟨hpc, -, -⟩
  · refine ⟨?_, rfl, ?_, ?_, ?_, ?_⟩
    · intro x hx
      rcases List.mem_or_eq_of_mem_set hx with hx | rfl
      · exact (hstart x hx).2
      · exact Or.inl rfl
    · intro x hx
      rcases List.mem_or_eq_of_mem_set hx with hx | rfl
      · rw [(hstart x hx).1]; simp
      · simp
    · refine Or.inr ⟨rfl, i, rfl, ?_⟩
      rw [List.getElem?_set_self hlen]
    · intro hx
      rcases List.mem_or_eq_of_mem_set hx with hx | hx
      · have := (hstart _ hx).1
        simp at this
      · simp at hx
    · intro x hx _
      rcases List.mem_or_eq_of_mem_set hx with hx | rfl
      · exact Or.inl (hstart x hx).1
      · exact Or.inr (Or.inl rfl)
  · cases hpc
  · cases hpc
  · cases hpc
  · cases hpc

/-! ## Component loader: the claims -/

/-- C8: in a configuration in which the enabled modules A and B (A before B,
other sections before, between and after them) both open and both have
factories that report the same non-zero type id t, A being the first module to
report t, the registry built by the constructor through load_components holds
exactly one entry for t, and that entry is the factory and module of A: the round
of A stores it, and nothing loaded later replaces it. The load attempt of B does
not raise: load_component returns false, leaves the registry as it is, logs
'duplicate component id' at error level and lets go of the factory of B; that log
is in the trace of load_components. -/
theorem duplicate_component_id_keeps_first {σ : Type} (env : plugin_environment σ)
    (ini : configuration) (locality : gid_type) (w : σ)
    (pre mid post : List ini_section) (A B : ini_section) (libA libB : String)
    (t : component_type) (fA fB : component_factory_base σ) (dA dB : dll)
    (stA afterA stB : loaded σ Unit)
    (hini : ini.components = some (pre ++ A :: (mid ++ B :: post)))
    (hstA : stA =
      (⟨[], ⟨false, false⟩⟩ : runtime_support σ).load_sections env ini locality pre w)
    (hafterA : afterA = stA.self.load_section env ini locality A stA.world)
    (hstB : stB = afterA.self.load_sections env ini locality mid afterA.world)
    (ht : t ≠ 0)
    (hfresh : stA.self.components_.find t = none)
    (hA : section_reports env ini locality A libA stA.world t fA dA)
    (hB : section_reports env ini locality B libB stB.world t fB dB) :
    (runtime_support.construct env ini locality w).self.components_.find t =
      some (some fA, dA) ∧
    (runtime_support.construct env ini locality w).self.components_.keys.count t = 1 ∧
    afterA.self.components_.find t = some (some fA, dA) ∧
    (stB.self.load_component env ini B.name (B.component env) libB locality B.isdefault
      stB.world).value = false ∧
    (stB.self.load_component env ini B.name (B.component env) libB locality B.isdefault
      stB.world).self = stB.self ∧
    (stB.self.load_component env ini B.name (B.component env) libB locality B.isdefault
      stB.world).trace =
      [.dll_open libB (B.component env), .plugin_create libB B.name,
       .get_component_type B.name,
       .log .error ("duplicate component id: " ++ B.name ++ ": "
         ++ env.get_component_type_name t),
       .factory_discarded B.name, .dll_closed libB] ∧
    event.log .error ("duplicate component id: " ++ B.name ++ ": "
        ++ env.get_component_type_name t) ∈
      (runtime_support.construct env ini locality w).trace := by
  -- the round of A stores its entry
  have hregA : afterA.self.components_.find t = some (some fA, dA) := by
    rw [hafterA]
    exact runtime_support.load_section_registers env stA.self ini locality A libA stA.world t
      fA dA hA ht hfresh
  -- the sections between A and B leave it alone
  have hfindB : stB.self.components_.find t = some (some fA, dA) := by
    rw [hstB]
    exact (runtime_support.load_sections_extends env afterA.self ini locality mid
      afterA.world).1 t _ hregA
  -- the round of B
  have hdupB := runtime_support.load_section_duplicate env stB.self ini locality B libB
    stB.world t fB dB (some fA, dA) hB ht hfindB
  have hroundB : (stB.self.load_section env ini locality B stB.world).self.components_.find t =
      some (some fA, dA) :=
    (runtime_support.load_section_extends env stB.self ini locality B stB.world).1 t _ hfindB
  -- the whole load, cut at A and at B
  have hcutA := runtime_support.load_sections_split env (⟨[], ⟨false, false⟩⟩ : runtime_support σ)
    ini locality pre (mid ++ B :: post) A w
  rw [← hstA, ← hafterA] at hcutA
  have hcutB := runtime_support.load_sections_split env afterA.self ini locality mid post B
    afterA.world
  rw [← hstB] at hcutB
  have hself : (runtime_support.construct env ini locality w).self =
      ((stB.self.load_section env ini locality B stB.world).self.load_sections env ini locality
        post (stB.self.load_section env ini locality B stB.world).world).self := by
    simp only [runtime_support.construct, runtime_support.load_components, hini]
    rw [hcutA.1, hcutB.1]
  have htrace : (runtime_support.construct env ini locality w).trace =
      stA.trace ++ (afterA.trace ++ (stB.trace ++
        ((stB.self.load_section env ini locality B stB.world).trace ++
          ((stB.self.load_section env ini locality B stB.world).self.load_sections env ini
            locality post (stB.self.load_section env ini locality B stB.world).world).trace))) := by
    simp only [runtime_support.construct, runtime_support.load_components, hini]
    rw [hcutA.2, hcutB.2]
  have hfinal : (runtime_support.construct env ini locality w).self.components_.find t =
      some (some fA, dA) := by
    rw [hself]
    exact (runtime_support.load_sections_extends env _ ini locality post _).1 t _ hroundB
  have hnodup : (runtime_support.construct env ini locality w).self.components_.keys.Nodup := by
    simp only [runtime_support.construct, runtime_support.load_components, hini]
    exact (runtime_support.load_sections_extends env _ ini locality _ w).2.1
      (by simp [component_map_type.keys])
  refine ⟨hfinal, ?_, hregA, hdupB.1.1, hdupB.1.2.1, hdupB.1.2.2, ?_⟩
  · apply List.count_eq_one_of_mem hnodup
    by_contra hmem
    rw [component_map_type.find_eq_none_of_not_mem_keys _ t hmem] at hfinal
    cases hfinal
  · rw [htrace]
    simp only [List.mem_append]
    exact Or.inr (Or.inr (Or.inr (Or.inl hdupB.2)))

/-- C8 on the configuration with the two modules A and B, both found under
`/opt/libs` and both reporting type 42: the constructor registers A under 42,
once, and the load of B leaves the duplicate log. -/
theorem duplicate_component_id_keeps_first_witness :
    (runtime_support.construct test_environment ⟨some [section_A, section_B], none⟩
      ⟨1, 0⟩ 0).self.components_.find 42 =
      some (some stub_factory,
        ⟨"/opt/libs/libhpx_component_A.so", "libhpx_component_A", false⟩) ∧
    (runtime_support.construct test_environment ⟨some [section_A, section_B], none⟩
      ⟨1, 0⟩ 0).self.components_.keys.count 42 = 1 ∧
    event.log .error "duplicate component id: B: stub" ∈
      (runtime_support.construct test_environment ⟨some [section_A, section_B], none⟩
        ⟨1, 0⟩ 0).trace :=
  have h := duplicate_component_id_keeps_first test_environment
    ⟨some [section_A, section_B], none⟩ ⟨1, 0⟩ 0 [] [] [] section_A section_B
    "/opt/libs/libhpx_component_A.so" "/opt/libs/libhpx_component_B.so" 42
    stub_factory stub_factory
    ⟨"/opt/libs/libhpx_component_A.so", "libhpx_component_A", false⟩
    ⟨"/opt/libs/libhpx_component_B.so", "libhpx_component_B", false⟩
    _ _ _ rfl rfl rfl rfl (by decide) rfl
    (by unfold section_reports
        exact ⟨by decide, by decide, Or.inr ⟨by decide, by decide⟩, 1, 1, 1, rfl, rfl, rfl⟩)
    (by unfold section_reports
        exact ⟨by decide, by decide, Or.inr ⟨by decide, by decide⟩, 2, 2, 2, rfl, rfl, rfl⟩)
  ⟨h.1, h.2.1, h.2.2.2.2.2.2⟩

/-- Leaving out a section with another name does not change what
`get_section` finds for an instance. -/
theorem configuration.component_section_skip (settings settings1 : Option ini_section)
    (pre post : List ini_section) (M : ini_section) (nm : String) (h : M.name ≠ nm) :
    (⟨some (pre ++ M :: post), settings⟩ : configuration).component_section nm =
      (⟨some (pre ++ post), settings1⟩ : configuration).component_section nm := by
  simp [configuration.component_section, List.find?_append, List.find?_cons, h]

/-- C10: a section M whose 'enabled' entry is, in lower case, one of no, false
or 0 gets no load attempt: its round of the loop only logs 'dynamic loading
disabled' and leaves registry and world alone (no module is opened, no factory
created); and load_components ends with the same registry and the same world as
for the configuration without M, its trace being that of the other sections
with the one log line of M in between. -/
theorem disabled_section_is_skipped {σ : Type} (env : plugin_environment σ)
    (rs : runtime_support σ) (locality : gid_type) (settings : Option ini_section)
    (pre post : List ini_section) (M : ini_section) (w : σ) (v : String)
    (hnames : ((pre ++ M :: post).map ini_section.name).Nodup)
    (hentry : M.entries.lookup "enabled" = some v)
    (hvalue : to_lower v = "no" ∨ to_lower v = "false" ∨ to_lower v = "0") :
    (∀ (r : runtime_support σ) (ini : configuration) (u : σ),
      r.load_section env ini locality M u =
        ⟨(), r, u, [.log .info ("dynamic loading disabled: " ++ M.name)]⟩) ∧
    (rs.load_components env ⟨some (pre ++ M :: post), settings⟩ locality w).self =
      (rs.load_components env ⟨some (pre ++ post), settings⟩ locality w).self ∧
    (rs.load_components env ⟨some (pre ++ M :: post), settings⟩ locality w).world =
      (rs.load_components env ⟨some (pre ++ post), settings⟩ locality w).world ∧
    (rs.load_components env ⟨some (pre ++ M :: post), settings⟩ locality w).trace =
      (rs.load_sections env ⟨some (pre ++ post), settings⟩ locality pre w).trace ++
        event.log .info ("dynamic loading disabled: " ++ M.name) ::
        ((rs.load_sections env ⟨some (pre ++ post), settings⟩ locality pre w).self.load_sections
          env ⟨some (pre ++ post), settings⟩ locality post
          (rs.load_sections env ⟨some (pre ++ post), settings⟩ locality pre w).world).trace ∧
    (rs.load_components env ⟨some (pre ++ post), settings⟩ locality w).trace =
      (rs.load_sections env ⟨some (pre ++ post), settings⟩ locality pre w).trace ++
        ((rs.load_sections env ⟨some (pre ++ post), settings⟩ locality pre w).self.load_sections
          env ⟨some (pre ++ post), settings⟩ locality post
          (rs.load_sections env ⟨some (pre ++ post), settings⟩ locality pre w).world).trace := by
  have hdis : M.disabled = true := by
    simp only [ini_section.disabled, ini_section.has_entry, ini_section.get_entry, hentry,
      Option.isSome_some, if_true, Option.getD_some, Bool.or_eq_true, beq_iff_eq]
    rcases hvalue with h | h | h
    · exact Or.inl (Or.inl h)
    · exact Or.inl (Or.inr h)
    · exact Or.inr h
  have hround : ∀ (r : runtime_support σ) (ini : configuration) (u : σ),
      r.load_section env ini locality M u =
        ⟨(), r, u, [.log .info ("dynamic loading disabled: " ++ M.name)]⟩ := by
    intro r ini u
    simp only [runtime_support.load_section, hdis, if_true]
  -- the other sections have other names
  simp only [List.map_append, List.map_cons] at hnames
  have hpre : ∀ sec ∈ pre, M.name ≠ sec.name := by
    intro sec hsec heq
    have := (List.nodup_append.mp hnames).2.2
    exact this (List.mem_map_of_mem _ hsec) (heq ▸ List.mem_cons_self _ _)
  have hpost : ∀ sec ∈ post, M.name ≠ sec.name := by
    intro sec hsec heq
    have := (List.nodup_cons.mp (List.nodup_append.mp hnames).2.1).1
    exact this (heq ▸ List.mem_map_of_mem _ hsec)
  have hcpre : ∀ (r : runtime_support σ) (u : σ),
      r.load_sections env ⟨some (pre ++ M :: post), settings⟩ locality pre u =
        r.load_sections env ⟨some (pre ++ post), settings⟩ locality pre u := by
    intro r u
    exact runtime_support.load_sections_congr env r _ _ locality pre u rfl
      (fun sec hsec => configuration.component_section_skip _ _ _ _ _ _ (hpre sec hsec))
  have hcpost : ∀ (r : runtime_support σ) (u : σ),
      r.load_sections env ⟨some (pre ++ M :: post), settings⟩ locality post u =
        r.load_sections env ⟨some (pre ++ post), settings⟩ locality post u := by
    intro r u
    exact runtime_support.load_sections_congr env r _ _ locality post u rfl
      (fun sec hsec => configuration.component_section_skip _ _ _ _ _ _ (hpost sec hsec))
  refine ⟨hround, ?_, ?_, ?_, ?_⟩ <;>
    simp only [runtime_support.load_components, runtime_support.load_sections_append,
      runtime_support.load_sections, hround, hcpre, hcpost, List.singleton_append]

/-- C10 on scenario S4: A has enabled = No, B is enabled; only B is registered. -/
theorem disabled_section_is_skipped_witness :
    (runtime_support.construct test_environment ⟨some [section_A_disabled, section_B], none⟩
      ⟨1, 0⟩ 0).self.components_.keys = [42] ∧
    (runtime_support.construct test_environment ⟨some [section_A_disabled, section_B], none⟩
      ⟨1, 0⟩ 0).self =
    (runtime_support.construct test_environment ⟨some [section_B], none⟩ ⟨1, 0⟩ 0).self :=
  ⟨by decide,
   (disabled_section_is_skipped test_environment ⟨[], ⟨false, false⟩⟩ ⟨1, 0⟩ none []
      [section_B] section_A_disabled 0 "No" (by decide) (by decide) (by decide)).2.1⟩

/-! ## Teardown: the claim -/

/-- C7 as stated fails: when the factory reports may_unload() = false the module
handle is pinned (keep_alive) before the factory is released, not after. -/
theorem keep_alive_precedes_factory_release :
    (two_module_service.tidy (fun _ w => w) 0).trace =
      [.factory_released 42, .module_released 42,
       .keep_alive 43, .factory_released 43, .module_released 43] ∧
    occurs_before (.factory_released 43) (.keep_alive 43)
      (two_module_service.tidy (fun _ w => w) 0).trace = false := by
  decide

/-- C7 (amended): teardown leaves the registry empty, and for every registered
entry with a factory the event 'factory released' comes strictly before the
event 'module handle released' of that entry, whether may_unload() is true or
false; when may_unload() is true the handle is not pinned at all, and when it is
false the event 'module handle pinned (keep_alive)' comes strictly before
'factory released'. -/
theorem tidy_releases_factory_before_module {σ : Type} (dll_close : dll → σ → σ)
    (pre post : component_map_type σ) (k : component_type) (factory : component_factory_base σ)
    (d : dll) (flags : lifecycle) (w : σ)
    (hkeys : (component_map_type.keys (pre ++ (k, (some factory, d)) :: post)).Nodup) :
    ((⟨pre ++ (k, (some factory, d)) :: post, flags⟩ : runtime_support σ).tidy
        dll_close w).self.components_ = [] ∧
    occurs_before (.factory_released k) (.module_released k)
      ((⟨pre ++ (k, (some factory, d)) :: post, flags⟩ : runtime_support σ).tidy
        dll_close w).trace = true ∧
    (factory.may_unload (tidy_loop dll_close pre w).2.1 = true →
      event.keep_alive k ∉
        ((⟨pre ++ (k, (some factory, d)) :: post, flags⟩ : runtime_support σ).tidy
          dll_close w).trace) ∧
    (factory.may_unload (tidy_loop dll_close pre w).2.1 = false →
      occurs_before (.keep_alive k) (.factory_released k)
        ((⟨pre ++ (k, (some factory, d)) :: post, flags⟩ : runtime_support σ).tidy
          dll_close w).trace = true) := by
  simp only [component_map_type.keys, List.map_append, List.map_cons] at hkeys
  have hk_pre : k ∉ component_map_type.keys pre := by
    intro h
    have := (List.nodup_append.mp hkeys).2.2
    exact this h (List.mem_cons_self _ _)
  have hk_post : k ∉ component_map_type.keys post := by
    have := (List.nodup_append.mp hkeys).2.1
    exact (List.nodup_cons.mp this).1
  -- no event of the entries before or after is about `k`
  have hpre : ∀ e, e.teardown_key = some k → e ∉ (tidy_loop dll_close pre w).2.2 := by
    intro e hek he
    obtain ⟨k1, hk1, h⟩ := tidy_loop_keys dll_close pre w e he
    rw [hek] at h
    cases h
    exact hk_pre hk1
  have hpost : ∀ w1 e, e.teardown_key = some k → e ∉ (tidy_loop dll_close post w1).2.2 := by
    intro w1 e hek he
    obtain ⟨k1, hk1, h⟩ := tidy_loop_keys dll_close post w1 e he
    rw [hek] at h
    cases h
    exact hk_post hk1
  refine ⟨tidy_loop_erases_all _ _ _, ?_, ?_, ?_⟩
  · simp only [runtime_support.tidy, tidy_loop_append]
    rw [occurs_before_append _ _ _ _ (hpre (.factory_released k) rfl)
      (hpre (.module_released k) rfl)]
    simp only [tidy_loop]
    split_ifs <;> simp [occurs_before]
  · intro hmay
    simp only [runtime_support.tidy, tidy_loop_append, List.mem_append, not_or]
    refine ⟨hpre (.keep_alive k) rfl, ?_⟩
    simp only [tidy_loop, hmay, Bool.not_true, Bool.false_eq_true, if_false, List.mem_cons,
      not_or]
    exact ⟨by simp, by simp, hpost _ (.keep_alive k) rfl⟩
  · intro hmay
    simp only [runtime_support.tidy, tidy_loop_append]
    rw [occurs_before_append _ _ _ _ (hpre (.keep_alive k) rfl)
      (hpre (.factory_released k) rfl)]
    simp [tidy_loop, hmay, occurs_before]

/-- C7 (amended) on the registry with the stub at 42 and the resident factory at 43. -/
theorem tidy_releases_factory_before_module_witness :
    (two_module_service.tidy (fun _ w => w) 0).self.components_ = [] ∧
    occurs_before (.factory_released 43) (.module_released 43)
      (two_module_service.tidy (fun _ w => w) 0).trace = true :=
  ⟨(tidy_releases_factory_before_module (fun _ w => w)
      [(42, (some stub_factory, ⟨"/opt/libs/libstub.so", "stub", false⟩))] []
      43 resident_factory ⟨"/opt/libs/libres.so", "res", false⟩ ⟨true, true⟩ 0
      (by decide)).1,
   (tidy_releases_factory_before_module (fun _ w => w)
      [(42, (some stub_factory, ⟨"/opt/libs/libstub.so", "stub", false⟩))] []
      43 resident_factory ⟨"/opt/libs/libres.so", "res", false⟩ ⟨true, true⟩ 0
      (by decide)).2.1⟩

/-! ## Lifecycle controller: the claims -/

/-- C4 (evaluation of the code): from the constructed state (false,false) a
single stopped() call, with no stop() before it, leaves stopped=false and
terminated=true, and a stop() that follows fails its BOOST_ASSERT. -/
theorem terminated_without_stopped_reachable :
    (system.init [.stopped]).run_schedule [0, 0] =
      some ⟨⟨false, true⟩, none, false, [⟨.stopped, .returned⟩]⟩ ∧
    (system.init [.stopped, .stop]).run_schedule [0, 0, 1, 1] =
      some ⟨⟨false, true⟩, none, true, [⟨.stopped, .returned⟩, ⟨.stop, .assert_failed⟩]⟩ := by
  decide

/-- C6 (evaluation of the code): a thread that calls wait() in (false,false),
blocks, and is woken without a notification returns while stopped=false; a
thread that calls stop(), blocks, and is woken without a notification returns
while terminated=false, although stopped() was never called. -/
theorem wait_and_stop_return_on_spurious_wakeup :
    (system.init [.wait]).run_schedule [0, 0, 0, 0, 0] =
      some ⟨⟨false, false⟩, none, false, [⟨.wait, .returned⟩]⟩ ∧
    (system.init [.stop]).run_schedule [0, 0, 0, 0, 0] =
      some ⟨⟨true, false⟩, none, false, [⟨.stop, .returned⟩]⟩ := by
  decide

/-- Scenario S5: X calls wait(), Y calls stop(), Z calls stopped(); X returns
after the stop request, Y after stopped(), and the flags end as (true,true). -/
theorem scenario_S5_rendezvous :
    (system.init [.wait, .stop, .stopped]).run_schedule [0, 0, 1, 1, 0, 0, 2, 2, 1, 1] =
      some ⟨⟨true, true⟩, none, false,
        [⟨.wait, .returned⟩, ⟨.stop, .returned⟩, ⟨.stopped, .returned⟩]⟩ := by
  decide

/-! ## Cluster shutdown: the claim -/

/-- A `notify_all` that is not made leaves the threads as they are. -/
theorem wake_all_none (ts : List thread) : wake_all none ts = ts := by
  unfold wake_all
  simp

/-- C12 as stated fails: run() has no assertion. Called in (stopped=true,
terminated=true), after a stop() and a stopped(), it returns and resets the
state to (false,false). -/
theorem run_after_shutdown_resets :
    (¬ ∀ f : lifecycle, (f.stopped_ = true ∨ f.terminated_ = true) →
      (lifecycle.run f).next = .assert_failed ∧ (lifecycle.run f).flags ≠ ⟨false, false⟩) ∧
    lifecycle.run ⟨true, true⟩ = ⟨⟨false, false⟩, none, .returned⟩ ∧
    (system.init [.stop, .stopped, .run]).run_schedule [0, 0, 1, 1, 0, 0, 2, 2] =
      some ⟨⟨false, false⟩, none, false,
        [⟨.stop, .returned⟩, ⟨.stopped, .returned⟩, ⟨.run, .returned⟩]⟩ := by
  refine ⟨?_, by decide, by decide⟩
  intro h
  have := (h ⟨true, true⟩ (Or.inl rfl)).1
  exact absurd this (by decide)

/-- C12 (amended): run() makes no assertion. In every lifecycle state its body
returns, notifies nobody and leaves (stopped=false, terminated=false); so a
thread that calls run() while the mutex is free takes the mutex, returns without
a failed assertion and leaves the flags at (false,false) with the mutex free
again: from (false,false) the state stays (false,false), and after a stop() or
stopped() the state is reset to (false,false). -/
theorem run_resets_in_every_state (s : system) (i : Nat) (hlive : s.aborted = false)
    (hfree : s.mtx_ = none) (hthread : s.threads[i]? = some ⟨.run, .start⟩) :
    (∀ f : lifecycle, lifecycle.run f = ⟨⟨false, false⟩, none, .returned⟩) ∧
    ∃ s2, s.run_schedule [i, i] = some s2 ∧ s2.flags = ⟨false, false⟩ ∧
      s2.aborted = false ∧ s2.mtx_ = none ∧ s2.threads[i]? = some ⟨.run, .returned⟩ := by
  refine ⟨fun _ => rfl, ?_⟩
  have hlen : i < s.threads.length := by
    rcases Nat.lt_or_ge i s.threads.length with hlt | hge
    · exact hlt
    · rw [List.getElem?_eq_none hge] at hthread; cases hthread
  have hstep1 : s.step i =
      some ⟨s.flags, some i, false, s.threads.set i ⟨.run, .locked⟩⟩ := by
    simp [system.step, hlive, hthread, hfree]
  have hget : (s.threads.set i ⟨.run, .locked⟩)[i]? = some ⟨.run, .locked⟩ :=
    List.getElem?_set_self hlen
  have hstep2 : (⟨s.flags, some i, false, s.threads.set i ⟨.run, .locked⟩⟩ : system).step i =
      some ⟨⟨false, false⟩, none, false,
        (s.threads.set i ⟨.run, .locked⟩).set i ⟨.run, .returned⟩⟩ := by
    simp [system.step, hget, call.body, lifecycle.run, wake_all_none]
  refine ⟨⟨⟨false, false⟩, none, false,
    (s.threads.set i ⟨.run, .locked⟩).set i ⟨.run, .returned⟩⟩, ?_, rfl, rfl, rfl, ?_⟩
  · simp only [system.run_schedule, hstep1, Option.some_bind, hstep2]
  · exact List.getElem?_set_self (by simpa using hlen)

/-- C12 (amended) after a shutdown: in (true,true), with stop() and stopped()
returned, a thread that calls run() resets the flags to (false,false). -/
theorem run_resets_in_every_state_witness :
    ∃ s2, (⟨⟨true, true⟩, none, false,
        [⟨.stop, .returned⟩, ⟨.stopped, .returned⟩, ⟨.run, .start⟩]⟩ : system).run_schedule
          [2, 2] = some s2 ∧
      s2.flags = ⟨false, false⟩ ∧ s2.aborted = false ∧ s2.mtx_ = none ∧
      s2.threads[2]? = some ⟨.run, .returned⟩ :=
  (run_resets_in_every_state
    ⟨⟨true, true⟩, none, false, [⟨.stop, .returned⟩, ⟨.stopped, .returned⟩, ⟨.run, .start⟩]⟩
    2 rfl rfl rfl).2

end hpx
